import Mathlib

/-!
# Verification of the agentmemory topic-segmentation and retrieval engine

Shallow embedding of the repository's memory core:

* `src/utils/embed.py` — `get_embedding` (blank-text guard), `cosine_similarity`,
  `find_relevant_topics`;
* `src/memory/topics.py` — `Topic`;
* `src/memory/short_term.py` — `ShortTermMemory` (`get_context`, `add_single_turn`,
  `_check_context_window_limit`, `_detect_topic_shift`, `_verify_topic_switch_with_llm`,
  `_close_current_topic`, `_generate_and_update_topic_summary`, `_start_new_topic`);
* `src/memory/long_term.py` — facts upsert/pruning and the notepad update/compression;
* `src/agent.py` — the per-turn orchestration order of `single_turn_chat`.

External collaborators (the OpenAI embedding and completion calls, wall-clock time,
uuid generation) are modelled as oracle parameters.  Python floats are idealised as
exact reals: a cosine similarity is carried as the exact pair `(dot, ‖a‖²·‖b‖²)`
standing for the real number `dot / √(‖a‖²·‖b‖²)`, together with decidable
comparison functions proved below to agree with the real-number order; a NaN
similarity (zero-norm operand) is the `none` case, and every comparison involving
NaN is false, as in IEEE/Python.
-/

/-- Outcome of a `generate_with_retry` call (`src/utils/openai_base.py`).
Parse/validation failures exhaust retries and surface as `ValueError`
(line 86); any other exception is re-raised as-is (line 93). -/
inductive LlmExn where
  | parseError : LlmExn
  | apiError : LlmExn
deriving DecidableEq, Repr

/-- A chat message `{role, content, timestamp}` as stored in `Topic.messages`. -/
structure Message where
  role : String
  content : String
  timestamp : String
deriving DecidableEq, Repr

/-- `Topic` from `src/memory/topics.py`.  The fields `default_k` and `embedding`
are never read by the code under verification and are omitted. -/
structure Topic where
  id : String
  name : String
  summary : Option String
  messages : List Message
  numMessages : Nat
  createdAt : String
  closedAt : Option String
deriving DecidableEq, Repr

/-- `Topic.add_message_to_topic`: append and bump `num_messages`. -/
def Topic.addMessage (t : Topic) (m : Message) : Topic :=
  { t with messages := t.messages ++ [m], numMessages := t.numMessages + 1 }

/-- Structured output `TopicSwitchDecision` (`src/utils/models.py`). -/
structure TopicSwitchDecision where
  switch : Bool
  topic : String
deriving DecidableEq, Repr

/-- Structured output `CloseTopicResponse` (`src/utils/models.py`). -/
structure CloseTopicResponse where
  label : String
  summary : String
deriving DecidableEq, Repr

/-- Structured output `NotepadResponse` (`src/utils/models.py`). -/
structure NotepadResponse where
  updatedNotepad : String
deriving DecidableEq, Repr

/-- `np.dot` on equal-length rational vectors. -/
def dot (a b : List ℚ) : ℚ :=
  (List.zipWith (· * ·) a b).sum

/-- Squared Euclidean norm `‖a‖²` (so `np.linalg.norm a * np.linalg.norm b`
is `√(normSq a * normSq b)`). -/
def normSq (a : List ℚ) : ℚ :=
  dot a a

/-- A Python-float similarity value: `none` is NaN; `some (d, n)` (with `0 < n`
for every value the code constructs) denotes the real number `d / √n`. -/
abbrev Sim := Option (ℚ × ℚ)

/-- `cosine_similarity` (`src/utils/embed.py` lines 22-24):
`dot(a,b) / (‖a‖·‖b‖)`.  The quotient is NaN exactly when the denominator is
zero (then the numerator is zero as well, since a zero-norm rational vector is
the zero vector); otherwise it is the exact value `dot / √(‖a‖²‖b‖²)`. -/
def cosineSim (a b : List ℚ) : Sim :=
  if normSq a * normSq b = 0 then none
  else some (dot a b, normSq a * normSq b)

/-- Python `<` on two similarity values: false whenever either side is NaN;
on values it decides `d₁/√n₁ < d₂/√n₂` by sign analysis and cross-multiplied
squares (proved correct in `pyLt_eq_true_iff`). -/
def pyLt : Sim → Sim → Bool
  | none, _ => false
  | some _, none => false
  | some (d₁, n₁), some (d₂, n₂) =>
    if 0 ≤ d₁ then decide (0 < d₂) && decide (d₁ ^ 2 * n₂ < d₂ ^ 2 * n₁)
    else decide (0 ≤ d₂) || decide (d₂ ^ 2 * n₁ < d₁ ^ 2 * n₂)

/-- Python `sim > t` against a rational threshold `t`: false for NaN,
otherwise decides `t < d/√n` (proved correct in `pyGtQ_eq_true_iff`). -/
def pyGtQ : Sim → ℚ → Bool
  | none, _ => false
  | some (d, n), t =>
    if 0 ≤ t then decide (0 < d) && decide (t ^ 2 * n < d ^ 2)
    else decide (0 ≤ d) || decide (d ^ 2 < t ^ 2 * n)

/-- Python truthiness of `text.strip()`: `not text.strip()` is true exactly
when every character is whitespace.  (Implemented over the character list so
that concrete instances evaluate in the kernel.) -/
def isBlank (s : String) : Bool :=
  s.data.all Char.isWhitespace

/-- Python `str.strip()`: drop leading and trailing whitespace. -/
def pyStrip (s : String) : String :=
  ⟨((s.data.dropWhile Char.isWhitespace).reverse.dropWhile Char.isWhitespace).reverse⟩

/-- `get_embedding` (`src/utils/embed.py` lines 11-20): blank text maps to the
1536-dimensional zero vector without calling the external embedder `f`. -/
def getEmbedding (f : String → List ℚ) (text : String) : List ℚ :=
  if isBlank text then List.replicate 1536 0 else f text

/-- CPython's binary-search insertion point (`bisect_right`-style, as used by
timsort's `binarysort`): the loop `while lo < hi: mid := (lo+hi)/2;
if x < l[mid] then hi := mid else lo := mid+1`. -/
def bisect (lt : α → α → Bool) (x : α) (l : List α) (lo hi : Nat) : Nat :=
  if _h : lo < hi then
    let mid := (lo + hi) / 2
    if lt x (l.getD mid x) then bisect lt x l lo mid
    else bisect lt x l (mid + 1) hi
  else lo
termination_by hi - lo
decreasing_by
  all_goals simp only [mid] at *
  all_goals omega

/-- Insert `x` into `l` at the position CPython's binarysort chooses. -/
def binInsert (lt : α → α → Bool) (x : α) (l : List α) : List α :=
  let p := bisect lt x l 0 l.length
  l.take p ++ x :: l.drop p

/-- Ascending stable sort by repeated binary insertion — CPython's `binarysort`,
the exact algorithm `list.sort` runs on short lists (and, for any consistent
comparator, extensionally equal to timsort on all lists, both being stable). -/
def binSortAsc (lt : α → α → Bool) (l : List α) : List α :=
  l.foldl (fun acc x => binInsert lt x acc) []

/-- `list.sort(reverse=True)`: CPython reverses the list, sorts ascending
(stably), and reverses again. -/
def pySortDesc (lt : α → α → Bool) (l : List α) : List α :=
  (binSortAsc lt l.reverse).reverse

/-- The comparator `scores.sort(..., key=lambda x: x[0])` uses: compare the
similarity components only. -/
def pyLtKey (p q : Sim × Topic) : Bool :=
  pyLt p.1 q.1

/-- The `scores` list built by `find_relevant_topics` (`src/utils/embed.py`
lines 39-46): one `(similarity, topic)` entry per topic whose id has an
embedding; topics without one are skipped. -/
def relevanceScores (queryEmb : List ℚ) (topics : List Topic)
    (embeddings : String → Option (List ℚ)) : List (Sim × Topic) :=
  topics.filterMap fun t => (embeddings t.id).map fun e => (cosineSim queryEmb e, t)

/-- `scores.sort(reverse=True, key=lambda x: x[0])`. -/
def relevanceSorted (queryEmb : List ℚ) (topics : List Topic)
    (embeddings : String → Option (List ℚ)) : List (Sim × Topic) :=
  pySortDesc pyLtKey (relevanceScores queryEmb topics embeddings)

/-- `find_relevant_topics` (`src/utils/embed.py` lines 27-49). -/
def findRelevantTopics (f : String → List ℚ) (query : String) (topics : List Topic)
    (embeddings : String → Option (List ℚ)) (maxK : Nat) (minThreshold : ℚ) :
    List Topic :=
  if topics = [] ∨ isBlank query then []
  else
    (((relevanceSorted (getEmbedding f query) topics embeddings).filter
        fun p => pyGtQ p.1 minThreshold).map (·.2)).take maxK

/-- The in-memory state of `ShortTermMemory` (`src/memory/short_term.py`
lines 37-42).  The session-directory paths and debug files are pure
persistence substrate and are omitted; `pending_summary_future` is represented
by the `Option SummaryJob` value the turn handler returns (the code stores the
same future it returns). -/
structure STM where
  topics : List Topic
  currOpenTopic : Option Topic
  currentTopicId : Option String
  topicEmbeddings : List (String × List ℚ)
deriving DecidableEq, Repr

/-- Dictionary lookup `self.topic_embeddings.get(id)` over the association
list representing the dict. -/
def lookupEmb : List (String × List ℚ) → String → Option (List ℚ)
  | [], _ => none
  | (k, v) :: rest, i => if k = i then some v else lookupEmb rest i

/-- Dictionary store `self.topic_embeddings[id] = emb`: replace in place if
present, else append (Python dict insertion-order semantics). -/
def setEmb : List (String × List ℚ) → String → List ℚ → List (String × List ℚ)
  | [], i, e => [(i, e)]
  | (k, v) :: rest, i, e => if k = i then (k, e) :: rest else (k, v) :: setEmb rest i e

/-- One-line closed-topic entry `{id, name, summary}` of
`ShortTermMemory.get_context`. -/
structure ClosedTopicSummary where
  id : String
  name : String
  summary : Option String
deriving DecidableEq, Repr

/-- Entry of the `relevant_topics` list of `ShortTermMemory.get_context`
(full message thread included). -/
structure RelevantTopicEntry where
  id : String
  name : String
  summary : Option String
  messages : List Message
deriving DecidableEq, Repr

/-- Return value of `ShortTermMemory.get_context`. -/
structure STMContext where
  recentMessages : List Message
  closedTopicsSummaries : List ClosedTopicSummary
  relevantTopics : List RelevantTopicEntry
deriving DecidableEq, Repr

/-- `ShortTermMemory.get_context` (`src/memory/short_term.py` lines 47-94),
with the embedding oracle `f` standing for the external embedder. -/
def STM.getContext (f : String → List ℚ) (st : STM) (query : String) : STMContext :=
  match st.currOpenTopic with
  | none => ⟨[], [], []⟩
  | some t =>
    let closed := st.topics.map fun tt => ClosedTopicSummary.mk tt.id tt.name tt.summary
    let relevant :=
      if st.topics ≠ [] ∧ ¬ isBlank query then
        (findRelevantTopics f query st.topics (lookupEmb st.topicEmbeddings) 2 (75 / 100)).map
          fun tt => RelevantTopicEntry.mk tt.id tt.name tt.summary tt.messages
      else []
    ⟨t.messages, closed, relevant⟩

/-- `_verify_topic_switch_with_llm` (`src/memory/short_term.py` lines 185-200):
the classifier call is an oracle `Except` value (the prompt text does not
influence the modelled behaviour); any exception — including the `ValueError`
that `generate_with_retry` raises after a parse failure — yields `false`. -/
def verifyTopicSwitchWithLlm (llm : Except LlmExn TopicSwitchDecision) : Bool :=
  match llm with
  | .error _ => false
  | .ok result => if result.switch then true else false

/-- The stage-1 similarity of `_detect_topic_shift` (`src/memory/short_term.py`
lines 170-176): cosine similarity between the embedding of the new user
message and the embedding of the concatenated last-3-messages context. -/
def topicShiftSimilarity (f : String → List ℚ) (t : Topic) (message : String) : Sim :=
  let recentMessages := t.messages.drop (t.messages.length - 3)
  let contextText := String.intercalate " " (recentMessages.map (·.content))
  cosineSim (getEmbedding f message) (getEmbedding f contextText)

/-- `_detect_topic_shift` (`src/memory/short_term.py` lines 161-183), reading
the given open-topic slot. -/
def detectTopicShift (f : String → List ℚ) (llm : Except LlmExn TopicSwitchDecision)
    (currOpenTopic : Option Topic) (message : String) : Bool :=
  match currOpenTopic with
  | none => false
  | some t =>
    if t.messages.length < 3 then false
    else
      if pyGtQ (topicShiftSimilarity f t message) (45 / 100) then false
      else verifyTopicSwitchWithLlm llm

/-- `_check_context_window_limit` (`src/memory/short_term.py` lines 151-159):
sum of message content lengths strictly above `MAX_CONTEXT_CHARS = 25000`. -/
def checkContextWindowLimit (st : STM) : Bool :=
  match st.currOpenTopic with
  | none => false
  | some t => decide (25000 < (t.messages.map (·.content.length)).sum)

/-- The work `_close_current_topic` hands to the executor when one is supplied:
run `_generate_and_update_topic_summary(closed_topic, messages_text, topic_id)`
later. -/
structure SummaryJob where
  topic : Topic
  messagesText : String
  topicId : String
deriving DecidableEq, Repr

/-- `_generate_and_update_topic_summary` (`src/memory/short_term.py`
lines 265-285): returns the mutated topic and the `(topic_id, embedding)`
entry written into `self.topic_embeddings`. -/
def generateAndUpdateTopicSummary (f : String → List ℚ)
    (llmClose : Except LlmExn CloseTopicResponse) (topic : Topic) (topicId : String) :
    Topic × (String × List ℚ) :=
  let topic' :=
    match llmClose with
    | .ok result => { topic with name := result.label, summary := some result.summary }
    | .error _ =>
      { topic with
        name := if topic.name = "" then "Unnamed Topic" else topic.name
        summary :=
          match topic.summary with
          | none => some "No summary available"
          | some s => if s = "" then some "No summary available" else some s }
  let summary := topic'.summary.getD ""
  let summaryText :=
    if summary ≠ "" ∧ summary ≠ "No summary available" ∧
        summary ≠ "Brief exchange with minimal content." then summary
    else if topic'.name = "" then "Unnamed Topic" else topic'.name
  (topic', (topicId, getEmbedding f summaryText))

/-- `_close_current_topic` (`src/memory/short_term.py` lines 202-263).
`executor = true` models a live executor: the summary job is submitted and
returned as the pending future; `executor = false` runs
`_generate_and_update_topic_summary` synchronously (the code appends the topic
object to `self.topics` and then mutates that same object in place; the model
computes the mutated topic before appending, which yields the same state). -/
def closeCurrentTopic (f : String → List ℚ) (llmClose : Except LlmExn CloseTopicResponse)
    (closedAt : String) (executor : Bool) (st : STM) : STM × Option SummaryJob :=
  match st.currOpenTopic with
  | none => (st, none)
  | some t0 =>
    let t := { t0 with closedAt := some closedAt }
    if t.messages = [] then
      ({ st with currOpenTopic := none, currentTopicId := none }, none)
    else if t.messages.length < 1 then
      -- lines 222-238; unreachable for a nonempty message list, kept verbatim
      let t1 :=
        { t with
          name := if t.name = "" then "Empty Topic" else t.name
          summary := some "Brief exchange with minimal content." }
      let summaryText := if t1.name = "" then "Unnamed Topic" else t1.name
      ({ st with
          topicEmbeddings := setEmb st.topicEmbeddings t.id (getEmbedding f summaryText)
          topics := st.topics ++ [t1]
          currOpenTopic := none
          currentTopicId := none }, none)
    else
      let messagesText :=
        String.intercalate "\n" (t.messages.map fun m => m.role ++ ": " ++ m.content)
      if executor then
        ({ st with
            topics := st.topics ++ [t]
            currOpenTopic := none
            currentTopicId := none },
          some ⟨t, messagesText, t.id⟩)
      else
        let r := generateAndUpdateTopicSummary f llmClose t t.id
        ({ st with
            topics := st.topics ++ [r.1]
            currOpenTopic := none
            currentTopicId := none
            topicEmbeddings := setEmb st.topicEmbeddings r.2.1 r.2.2 }, none)

/-- The fresh topic `_start_new_topic` creates: empty name, null summary, no
messages, given uuid and creation stamp. -/
def freshTopic (newId createdAt : String) : Topic :=
  ⟨newId, "", none, [], 0, createdAt, none⟩

/-- `_start_new_topic` (`src/memory/short_term.py` lines 287-299) with the
fresh uuid and `utcnow` timestamp passed in. -/
def startNewTopic (newId createdAt : String) (st : STM) : STM :=
  { st with
    currentTopicId := some newId
    currOpenTopic := some (freshTopic newId createdAt) }

/-- Oracle bundle for one `add_single_turn` call: the external embedder, the
two LLM calls the turn can make, the shared timestamp of the appended pair
(line 106), the `closed_at` stamp, and the uuid/timestamp pairs for the up to
two `_start_new_topic` calls (line 104, and line 130 or 146). -/
structure TurnEnv where
  getEmb : String → List ℚ
  llmSwitch : Except LlmExn TopicSwitchDecision
  llmClose : Except LlmExn CloseTopicResponse
  ts : String
  closedAt : String
  idA : String
  createdA : String
  idB : String
  createdB : String

/-- Map a function over the open-topic slot (in-place mutation of
`self.curr_open_topic`). -/
def STM.withOpen (st : STM) (g : Topic → Topic) : STM :=
  { st with currOpenTopic := st.currOpenTopic.map g }

/-- `add_single_turn` (`src/memory/short_term.py` lines 96-149). -/
def addSingleTurn (env : TurnEnv) (executor : Bool) (st : STM)
    (userMessage assistantResponse : String) : STM × Option SummaryJob :=
  let st1 :=
    match st.currOpenTopic with
    | none => startNewTopic env.idA env.createdA st
    | some _ => st
  let uMsg : Message := ⟨"user", userMessage, env.ts⟩
  let aMsg : Message := ⟨"assistant", assistantResponse, env.ts⟩
  let st2 := st1.withOpen fun t => (t.addMessage uMsg).addMessage aMsg
  if detectTopicShift env.getEmb env.llmSwitch st2.currOpenTopic userMessage then
    let st3 := st2.withOpen fun t =>
      if 2 ≤ t.messages.length then { t with messages := t.messages.dropLast.dropLast }
      else t
    let r := closeCurrentTopic env.getEmb env.llmClose env.closedAt executor st3
    let st4 := startNewTopic env.idB env.createdB r.1
    let st5 := st4.withOpen fun t => (t.addMessage uMsg).addMessage aMsg
    (st5, r.2)
  else if checkContextWindowLimit st2 then
    let r := closeCurrentTopic env.getEmb env.llmClose env.closedAt executor st2
    (startNewTopic env.idB env.createdB r.1, r.2)
  else
    (st2, none)

/-- The topic `add_single_turn` appends the pair to: the already-open topic,
or the fresh one `_start_new_topic` opens at line 104. -/
def effectiveOpenTopic (env : TurnEnv) (st : STM) : Topic :=
  match st.currOpenTopic with
  | some t => t
  | none => freshTopic env.idA env.createdA

/-- One incoming fact of a `FactsResponse` (`src/utils/models.py`). -/
structure UserFact where
  field : String
  value : String
  importance : ℤ
deriving DecidableEq, Repr

/-- A stored facts-table entry `{value, importance, updated_at}`
(`src/memory/long_term.py`).  `updatedAt = none` models a persisted record
whose `updated_at` key is absent (`data.get("updated_at")` is `None`). -/
structure FactData where
  value : String
  importance : ℤ
  updatedAt : Option String
deriving DecidableEq, Repr

/-- In-memory `LongTermMemory` state relevant to the verified operations:
the facts dict (association list in insertion order), the in-memory notepad
(`self.notepad`, `None` until first written), the notepad file contents
(`none` = file absent), and `all_session_topics`. -/
structure LTM where
  facts : List (String × FactData)
  notepad : Option String
  notepadFile : Option String
  allSessionTopics : List Topic
deriving DecidableEq, Repr

/-- Python dict lookup on the facts table (first — and with unique keys,
only — binding). -/
def lookupFact : List (String × FactData) → String → Option FactData
  | [], _ => none
  | (k, v) :: rest, f => if k = f then some v else lookupFact rest f

/-- `self.facts[field] = data`: replace the existing binding in place, else
append (Python dict insertion-order update). -/
def upsertFact : List (String × FactData) → String → FactData → List (String × FactData)
  | [], f, d => [(f, d)]
  | (k, v) :: rest, f, d =>
    if k = f then (k, d) :: rest else (k, v) :: upsertFact rest f d

/-- Survival test of `_prune_facts` (`src/memory/long_term.py` lines 276-288)
for one entry: keep when `importance ≥ min_importance`, else when the parsed
timestamp is absent/unparseable (fail open) or at least the cutoff.
`parseTs` is the `datetime.fromisoformat(...).timestamp()` oracle returning
`none` on a parse exception; an empty/absent `updated_at` is never parsed. -/
def factSurvives (parseTs : String → Option ℚ) (cutoff : ℚ) (minImportance : ℤ)
    (d : FactData) : Bool :=
  let updatedTs : Option ℚ :=
    match d.updatedAt with
    | none => none
    | some ts => if ts = "" then none else parseTs ts
  decide (minImportance ≤ d.importance) ||
    match updatedTs with
    | none => true
    | some u => decide (cutoff ≤ u)

/-- `_prune_facts` (`src/memory/long_term.py` lines 269-290), with
`max_age_days = 365`, `min_importance = 7` at the call site and `nowTs` the
`datetime.utcnow().timestamp()` value. -/
def pruneFacts (parseTs : String → Option ℚ) (nowTs : ℚ) (maxAgeDays minImportance : ℤ)
    (facts : List (String × FactData)) : List (String × FactData) :=
  if facts = [] then facts
  else
    let cutoff := nowTs - (maxAgeDays : ℚ) * 24 * 3600
    facts.filter fun p => factSurvives parseTs cutoff minImportance p.2

/-- The upsert loop body of `save_facts_to_longterm` (lines 94-105): discard
whitespace-only values, clamp importance into `[1, 10]`, stamp
`updated_at = now`. -/
def upsertIncoming (nowStr : String) (acc : List (String × FactData)) (fact : UserFact) :
    List (String × FactData) :=
  let valueStr := pyStrip fact.value
  if valueStr = "" then acc
  else
    let importance := max 1 (min 10 fact.importance)
    upsertFact acc fact.field ⟨valueStr, importance, some nowStr⟩

/-- `save_facts_to_longterm` (`src/memory/long_term.py` lines 87-112).
`nowStr` is the `datetime.utcnow().isoformat()` stamp written into each upsert
and `nowTs` the (as-good-as-equal) `utcnow().timestamp()` the prune uses; the
final whole-file JSON persist has no in-memory effect and is omitted. -/
def saveFactsToLongterm (nowStr : String) (parseTs : String → Option ℚ) (nowTs : ℚ)
    (st : LTM) (facts : List UserFact) : LTM :=
  if facts = [] then st
  else
    let upserted := facts.foldl (upsertIncoming nowStr) st.facts
    { st with facts := pruneFacts parseTs nowTs 365 7 upserted }

/-- `_read_notepad` (`src/memory/long_term.py` lines 114-118): file contents,
or `""` when the file does not exist. -/
def readNotepad (st : LTM) : String :=
  st.notepadFile.getD ""

/-- `save_notepad` (lines 178-180): write `self.notepad or ""` to the file. -/
def saveNotepad (st : LTM) : LTM :=
  { st with notepadFile := some (st.notepad.getD "") }

/-- `_maybe_compress_notepad` (`src/memory/long_term.py` lines 292-299),
`max_chars = 8000`: no `try` protects this `generate_with_retry` call, so any
failure of the compression oracle propagates (`Except.error`). -/
def maybeCompressNotepad (llm : Except LlmExn NotepadResponse) (st : LTM) :
    Except LlmExn LTM :=
  match st.notepad with
  | none => .ok st
  | some np =>
    if np = "" ∨ np.length ≤ 8000 then .ok st
    else
      match llm with
      | .error e => .error e
      | .ok r => .ok { st with notepad := some r.updatedNotepad }

/-- The topic filter of `update_notepad` (`src/memory/long_term.py`
lines 122-129): the last up-to-10 session topics restricted to those holding
at least 2 messages.  When this list is empty, `update_notepad` returns
without any LLM call. -/
def notepadTopicsWithMessages (st : LTM) : List Topic :=
  let sessionTopics :=
    if 10 < st.allSessionTopics.length then
      st.allSessionTopics.drop (st.allSessionTopics.length - 10)
    else st.allSessionTopics
  sessionTopics.filter fun t => t.messages ≠ [] ∧ 2 ≤ t.messages.length

/-- `update_notepad` (`src/memory/long_term.py` lines 120-176).  Returns the
state as left in memory plus `some e` when an exception `e` escapes to the
caller.  Only `ValueError` (`.parseError`) from the update call is caught
(line 170); any other exception from that call, and every exception of the
unguarded compression call, propagates. -/
def updateNotepad (llmUpdate llmCompress : Except LlmExn NotepadResponse) (st : LTM) :
    LTM × Option LlmExn :=
  if notepadTopicsWithMessages st = [] then (st, none)
  else
    match llmUpdate with
    | .error .parseError => (st, none)
    | .error e => (st, some e)
    | .ok response =>
      let st1 := { st with notepad := some response.updatedNotepad }
      match maybeCompressNotepad llmCompress st1 with
      | .error e => (st1, some e)
      | .ok st2 => (saveNotepad st2, none)

/-- Observable steps of one `Agent.single_turn_chat` call (`src/agent.py`
lines 14-55), in the program order of the orchestrating thread.
`summaryAwaited` is the `summary_future.result()` join (line 38): once it has
happened the closed topic's summary and embedding are finalized. -/
inductive TurnEvent where
  | factExtractionSubmitted : TurnEvent
  | contextFetch : TurnEvent
  | replyGenerated : TurnEvent
  | factsAwaited : TurnEvent
  | turnRecorded : TurnEvent
  | summaryAwaited : TurnEvent
  | closedTopicPersisted : TurnEvent
  | factsSaved : TurnEvent
  | replyReturned : TurnEvent
deriving DecidableEq, Repr

/-- Trace of `single_turn_chat` (`src/agent.py` lines 14-55).  `userBlank` is
`not user_message.strip()`; `closesTopicAsync` is whether
`memory.add_single_turn` returned a pending summary future; `gotFacts` is
whether fact extraction produced a nonempty fact list. -/
def singleTurnChatTrace (userBlank closesTopicAsync gotFacts : Bool) : List TurnEvent :=
  if userBlank then
    [.contextFetch, .replyGenerated, .turnRecorded, .replyReturned]
  else
    [.factExtractionSubmitted, .contextFetch, .replyGenerated, .factsAwaited,
      .turnRecorded] ++
    (if closesTopicAsync then [.summaryAwaited, .closedTopicPersisted] else []) ++
    (if gotFacts then [.factsSaved] else []) ++
    [.replyReturned]

/-- Python float equality of two similarity values as a class test: neither
compares strictly below the other (false whenever either side is NaN, since a
NaN value is equal to nothing, itself included — but two NaNs make both
`pyLt` tests false, so the test is meaningful on value similarities only). -/
def simEqB (s₁ s₂ : Sim) : Bool :=
  !pyLt s₁ s₂ && !pyLt s₂ s₁

/-- The real number a score entry denotes (0 for NaN; used only in
specifications, never by the embedded code). -/
noncomputable def simKeyVal (p : Sim × Topic) : ℝ :=
  match p.1 with
  | none => 0
  | some (d, n) => (d : ℝ) / Real.sqrt (n : ℝ)

/-- A sum of squares is nonnegative. -/
theorem normSq_nonneg (a : List ℚ) : 0 ≤ normSq a := by
  unfold normSq dot
  induction a with
  | nil => simp
  | cons x xs ih =>
    simp only [List.zipWith_cons_cons, List.sum_cons]
    nlinarith [sq_nonneg x]

/-- The denominator carried by a non-NaN cosine similarity is positive. -/
theorem cosineSim_pos {a b : List ℚ} {d n : ℚ} (h : cosineSim a b = some (d, n)) :
    0 < n := by
  unfold cosineSim at h
  by_cases h0 : normSq a * normSq b = 0
  · simp [h0] at h
  · simp only [h0, if_false, Option.some.injEq, Prod.mk.injEq] at h
    have hnn : 0 ≤ normSq a * normSq b :=
      mul_nonneg (normSq_nonneg a) (normSq_nonneg b)
    rcases h with ⟨-, rfl⟩
    exact lt_of_le_of_ne hnn (Ne.symm h0)

/-- Correctness of the decidable threshold comparison: for a value
similarity `d/√n`, `pyGtQ` decides the real inequality `t < d/√n`. -/
theorem pyGtQ_eq_true_iff (d n t : ℚ) (hn : 0 < n) :
    pyGtQ (some (d, n)) t = true ↔ (t : ℝ) < (d : ℝ) / Real.sqrt (n : ℝ) := by
  have hnR : (0 : ℝ) < (n : ℝ) := by exact_mod_cast hn
  have hs : 0 < Real.sqrt (n : ℝ) := Real.sqrt_pos.mpr hnR
  have hsq : Real.sqrt (n : ℝ) ^ 2 = (n : ℝ) := Real.sq_sqrt hnR.le
  rw [lt_div_iff₀ hs]
  unfold pyGtQ
  by_cases ht : (0 : ℚ) ≤ t
  · have htR : (0 : ℝ) ≤ (t : ℝ) := by exact_mod_cast ht
    simp only [ht, if_true, Bool.and_eq_true, decide_eq_true_eq]
    constructor
    · rintro ⟨hd, hlt⟩
      have hdR : (0 : ℝ) < (d : ℝ) := by exact_mod_cast hd
      have hltR : (t : ℝ) ^ 2 * (n : ℝ) < (d : ℝ) ^ 2 := by exact_mod_cast hlt
      nlinarith [mul_nonneg htR hs.le]
    · intro hlt
      have hts : 0 ≤ (t : ℝ) * Real.sqrt (n : ℝ) := mul_nonneg htR hs.le
      have hdR : (0 : ℝ) < (d : ℝ) := lt_of_le_of_lt hts hlt
      refine ⟨by exact_mod_cast hdR, ?_⟩
      have : (t : ℝ) ^ 2 * (n : ℝ) < (d : ℝ) ^ 2 := by nlinarith
      exact_mod_cast this
  · have htR : (t : ℝ) < 0 := by
      have : ¬ (0 : ℝ) ≤ (t : ℝ) := by exact_mod_cast ht
      linarith [not_le.mp this]
    simp only [ht, if_false, Bool.or_eq_true, decide_eq_true_eq]
    constructor
    · rintro (hd | hlt)
      · have hdR : (0 : ℝ) ≤ (d : ℝ) := by exact_mod_cast hd
        nlinarith
      · by_cases hd : (0 : ℚ) ≤ d
        · have hdR : (0 : ℝ) ≤ (d : ℝ) := by exact_mod_cast hd
          nlinarith
        · have hdR : (d : ℝ) < 0 := by
            have : ¬ (0 : ℝ) ≤ (d : ℝ) := by exact_mod_cast hd
            linarith [not_le.mp this]
          have hltR : (d : ℝ) ^ 2 < (t : ℝ) ^ 2 * (n : ℝ) := by exact_mod_cast hlt
          nlinarith [mul_neg_of_neg_of_pos htR hs]
    · intro hlt
      by_cases hd : (0 : ℚ) ≤ d
      · exact Or.inl hd
      · refine Or.inr ?_
        have hdR : (d : ℝ) < 0 := by
          have : ¬ (0 : ℝ) ≤ (d : ℝ) := by exact_mod_cast hd
          linarith [not_le.mp this]
        have : (d : ℝ) ^ 2 < (t : ℝ) ^ 2 * (n : ℝ) := by
          nlinarith [mul_neg_of_neg_of_pos htR hs]
        exact_mod_cast this

/-- Correctness of the decidable value-to-value comparison: `pyLt` decides
`d₁/√n₁ < d₂/√n₂`. -/
theorem pyLt_eq_true_iff (d₁ n₁ d₂ n₂ : ℚ) (h₁ : 0 < n₁) (h₂ : 0 < n₂) :
    pyLt (some (d₁, n₁)) (some (d₂, n₂)) = true ↔
      (d₁ : ℝ) / Real.sqrt (n₁ : ℝ) < (d₂ : ℝ) / Real.sqrt (n₂ : ℝ) := by
  have h₁R : (0 : ℝ) < (n₁ : ℝ) := by exact_mod_cast h₁
  have h₂R : (0 : ℝ) < (n₂ : ℝ) := by exact_mod_cast h₂
  have hs₁ : 0 < Real.sqrt (n₁ : ℝ) := Real.sqrt_pos.mpr h₁R
  have hs₂ : 0 < Real.sqrt (n₂ : ℝ) := Real.sqrt_pos.mpr h₂R
  have hsq₁ : Real.sqrt (n₁ : ℝ) ^ 2 = (n₁ : ℝ) := Real.sq_sqrt h₁R.le
  have hsq₂ : Real.sqrt (n₂ : ℝ) ^ 2 = (n₂ : ℝ) := Real.sq_sqrt h₂R.le
  rw [div_lt_div_iff₀ hs₁ hs₂]
  simp only [pyLt]
  by_cases hd₁ : (0 : ℚ) ≤ d₁
  · have hd₁R : (0 : ℝ) ≤ (d₁ : ℝ) := by exact_mod_cast hd₁
    simp only [hd₁, if_true, Bool.and_eq_true, decide_eq_true_eq]
    constructor
    · rintro ⟨hpos, hlt⟩
      have hd₂R : (0 : ℝ) < (d₂ : ℝ) := by exact_mod_cast hpos
      have hltR : (d₁ : ℝ) ^ 2 * (n₂ : ℝ) < (d₂ : ℝ) ^ 2 * (n₁ : ℝ) := by
        exact_mod_cast hlt
      nlinarith [mul_nonneg hd₁R hs₂.le, mul_pos hd₂R hs₁]
    · intro hlt
      have ha : 0 ≤ (d₁ : ℝ) * Real.sqrt (n₂ : ℝ) := mul_nonneg hd₁R hs₂.le
      have hb : 0 < (d₂ : ℝ) * Real.sqrt (n₁ : ℝ) := lt_of_le_of_lt ha hlt
      have hd₂R : (0 : ℝ) < (d₂ : ℝ) := by nlinarith
      refine ⟨?_, ?_⟩
      · exact_mod_cast hd₂R
      · have : (d₁ : ℝ) ^ 2 * (n₂ : ℝ) < (d₂ : ℝ) ^ 2 * (n₁ : ℝ) := by nlinarith
        exact_mod_cast this
  · have hd₁R : (d₁ : ℝ) < 0 := by
      have h' : ¬ (0 : ℝ) ≤ (d₁ : ℝ) := by exact_mod_cast hd₁
      linarith [not_le.mp h']
    simp only [hd₁, if_false, Bool.or_eq_true, decide_eq_true_eq]
    constructor
    · rintro (hpos | hlt)
      · have hd₂R : (0 : ℝ) ≤ (d₂ : ℝ) := by exact_mod_cast hpos
        nlinarith [mul_neg_of_neg_of_pos hd₁R hs₂, mul_nonneg hd₂R hs₁.le]
      · by_cases hd₂ : (0 : ℚ) ≤ d₂
        · have hd₂R : (0 : ℝ) ≤ (d₂ : ℝ) := by exact_mod_cast hd₂
          nlinarith [mul_neg_of_neg_of_pos hd₁R hs₂, mul_nonneg hd₂R hs₁.le]
        · have hd₂R : (d₂ : ℝ) < 0 := by
            have h' : ¬ (0 : ℝ) ≤ (d₂ : ℝ) := by exact_mod_cast hd₂
            linarith [not_le.mp h']
          have hltR : (d₂ : ℝ) ^ 2 * (n₁ : ℝ) < (d₁ : ℝ) ^ 2 * (n₂ : ℝ) := by
            exact_mod_cast hlt
          nlinarith [mul_neg_of_neg_of_pos hd₁R hs₂, mul_neg_of_neg_of_pos hd₂R hs₁]
    · intro hlt
      by_cases hd₂ : (0 : ℚ) ≤ d₂
      · exact Or.inl hd₂
      · refine Or.inr ?_
        have hd₂R : (d₂ : ℝ) < 0 := by
          have h' : ¬ (0 : ℝ) ≤ (d₂ : ℝ) := by exact_mod_cast hd₂
          linarith [not_le.mp h']
        have : (d₂ : ℝ) ^ 2 * (n₁ : ℝ) < (d₁ : ℝ) ^ 2 * (n₂ : ℝ) := by
          nlinarith [mul_neg_of_neg_of_pos hd₁R hs₂, mul_neg_of_neg_of_pos hd₂R hs₁]
        exact_mod_cast this

/-- C1: topic-boundary detection is two-stage and fail-safe.  (i) With no open
topic, or an open topic holding fewer than 3 messages, no switch is declared.
(ii) When the stage-1 cosine similarity is a value strictly greater than 0.45,
no switch is declared, whatever the LLM classifier oracle would answer (so the
classifier is not consulted).  (iii) When the similarity is a value at most
0.45, the LLM classifier decides: the detector returns exactly the
classifier's verdict, any exception (including the `ValueError` a parse
failure surfaces as) yields `false`, and a successful call yields its `switch`
field. -/
theorem C1_topic_shift_two_stage (f : String → List ℚ)
    (llm : Except LlmExn TopicSwitchDecision) (currOpenTopic : Option Topic)
    (message : String) :
    (detectTopicShift f llm none message = false) ∧
    (∀ t, currOpenTopic = some t → t.messages.length < 3 →
      detectTopicShift f llm currOpenTopic message = false) ∧
    (∀ t d n, currOpenTopic = some t → 3 ≤ t.messages.length →
      topicShiftSimilarity f t message = some (d, n) →
      (45 / 100 : ℝ) < (d : ℝ) / Real.sqrt (n : ℝ) →
      ∀ llm', detectTopicShift f llm' currOpenTopic message = false) ∧
    (∀ t d n, currOpenTopic = some t → 3 ≤ t.messages.length →
      topicShiftSimilarity f t message = some (d, n) →
      (d : ℝ) / Real.sqrt (n : ℝ) ≤ (45 / 100 : ℝ) →
      detectTopicShift f llm currOpenTopic message = verifyTopicSwitchWithLlm llm ∧
      (∀ e, llm = .error e → detectTopicShift f llm currOpenTopic message = false) ∧
      (∀ r, llm = .ok r → detectTopicShift f llm currOpenTopic message = r.switch)) := by
  refine ⟨by simp [detectTopicShift], ?_, ?_, ?_⟩
  · rintro t rfl hlen
    simp [detectTopicShift, if_pos hlen]
  · rintro t d n rfl hlen hsim hgt llm'
    have hn : 0 < n := by
      have h' : cosineSim (getEmbedding f message)
          (getEmbedding f (String.intercalate " "
            ((t.messages.drop (t.messages.length - 3)).map (·.content)))) = some (d, n) := by
        simpa [topicShiftSimilarity] using hsim
      exact cosineSim_pos h'
    have hb : pyGtQ (topicShiftSimilarity f t message) (45 / 100) = true := by
      rw [hsim]
      exact (pyGtQ_eq_true_iff d n (45 / 100) hn).mpr (by push_cast at hgt ⊢; linarith)
    simp [detectTopicShift, Nat.not_lt.mpr hlen, hb]
  · rintro t d n rfl hlen hsim hle
    have hn : 0 < n := by
      have h' : cosineSim (getEmbedding f message)
          (getEmbedding f (String.intercalate " "
            ((t.messages.drop (t.messages.length - 3)).map (·.content)))) = some (d, n) := by
        simpa [topicShiftSimilarity] using hsim
      exact cosineSim_pos h'
    have hb : pyGtQ (topicShiftSimilarity f t message) (45 / 100) = false := by
      rw [hsim]
      rw [Bool.eq_false_iff]
      intro hcon
      have := (pyGtQ_eq_true_iff d n (45 / 100) hn).mp hcon
      push_cast at this hle
      linarith
    refine ⟨by simp [detectTopicShift, Nat.not_lt.mpr hlen, hb], ?_, ?_⟩
    · rintro e rfl
      simp [detectTopicShift, Nat.not_lt.mpr hlen, hb, verifyTopicSwitchWithLlm]
    · rintro r rfl
      simp only [detectTopicShift, Nat.not_lt.mpr hlen, if_false, hb,
        verifyTopicSwitchWithLlm]
      cases hr : r.switch <;> simp [hr]

/-- C1 witness: a concrete low-similarity turn whose classifier call raises is
resolved to "no switch" by applying `C1_topic_shift_two_stage`. -/
theorem C1_topic_shift_two_stage_witness :
    detectTopicShift (fun s => if s = "new" then [1, 0] else [0, 1])
      (.error .parseError)
      (some ⟨"tid", "", none, [⟨"user", "a", "t0"⟩, ⟨"assistant", "b", "t0"⟩,
        ⟨"user", "c", "t0"⟩], 3, "t0", none⟩) "new" = false := by
  have h := (C1_topic_shift_two_stage (fun s => if s = "new" then [1, 0] else [0, 1])
      (.error .parseError)
      (some ⟨"tid", "", none, [⟨"user", "a", "t0"⟩, ⟨"assistant", "b", "t0"⟩,
        ⟨"user", "c", "t0"⟩], 3, "t0", none⟩) "new").2.2.2
      ⟨"tid", "", none, [⟨"user", "a", "t0"⟩, ⟨"assistant", "b", "t0"⟩,
        ⟨"user", "c", "t0"⟩], 3, "t0", none⟩ 0 1 rfl (by decide)
      (by norm_num +decide [topicShiftSimilarity, cosineSim, getEmbedding, isBlank,
        normSq, dot])
      (by norm_num)
  exact h.2.1 .parseError rfl

/-- C4 counterexample: in the state with no open topic but one closed topic,
`get_context` returns no closed-topic summaries at all (the early return at
lines 49-54 discards them), so the claim that the one-line summaries are
returned "for every closed topic of the session, regardless of relevance —
in particular when no topic is open" is false on the code. -/
theorem C4_get_context_counterexample :
    ¬ ((STM.getContext (fun _ => [])
          ⟨[⟨"t1", "Cooking", some "pasta talk", [], 0, "c0", some "c1"⟩],
            none, none, []⟩ "hello").closedTopicsSummaries =
        [⟨"t1", "Cooking", some "pasta talk"⟩]) := by
  decide

/-- C4 (amended): when no topic is open, `get_context` returns the all-empty
context — the empty live message list, but also no closed-topic summaries even
if closed topics exist; when a topic is open, it returns that topic's live
message list and a `{id, name, summary}` line for every closed topic of the
session, regardless of relevance to the query. -/
theorem C4_get_context (f : String → List ℚ) (st : STM) (query : String) :
    (st.currOpenTopic = none → STM.getContext f st query = ⟨[], [], []⟩) ∧
    (∀ t, st.currOpenTopic = some t →
      (STM.getContext f st query).recentMessages = t.messages ∧
      (STM.getContext f st query).closedTopicsSummaries =
        st.topics.map fun tt => ⟨tt.id, tt.name, tt.summary⟩) := by
  constructor
  · intro h
    simp [STM.getContext, h]
  · intro t h
    simp [STM.getContext, h]

/-- C4 witness: the amended theorem applied to a state with an open topic and
one closed topic. -/
theorem C4_get_context_witness :
    (STM.getContext (fun _ => [])
        ⟨[⟨"t1", "Cooking", some "pasta talk", [], 0, "c0", some "c1"⟩],
          some ⟨"t2", "", none, [⟨"user", "hi", "s0"⟩], 1, "s0", none⟩,
          some "t2", []⟩ "").recentMessages = [⟨"user", "hi", "s0"⟩] ∧
    (STM.getContext (fun _ => [])
        ⟨[⟨"t1", "Cooking", some "pasta talk", [], 0, "c0", some "c1"⟩],
          some ⟨"t2", "", none, [⟨"user", "hi", "s0"⟩], 1, "s0", none⟩,
          some "t2", []⟩ "").closedTopicsSummaries =
      [⟨"t1", "Cooking", some "pasta talk"⟩] := by
  have h := (C4_get_context (fun _ => [])
      ⟨[⟨"t1", "Cooking", some "pasta talk", [], 0, "c0", some "c1"⟩],
        some ⟨"t2", "", none, [⟨"user", "hi", "s0"⟩], 1, "s0", none⟩,
        some "t2", []⟩ "").2
      ⟨"t2", "", none, [⟨"user", "hi", "s0"⟩], 1, "s0", none⟩ rfl
  exact ⟨h.1, h.2⟩

/-- C3: the claim matches the code's own comment ("for topics with 1 message,
skip llm analysis but still persist", line 221) and the spec, but the guard at
line 222 reads `len(messages) < 1`, which is unreachable after the
`not messages` early return at line 216.  Closing a topic holding exactly one
message therefore does NOT skip summarization: with an executor an
asynchronous summary job IS created and no canned summary is assigned at close
time, and without an executor the summary is the LLM result, not
"Brief exchange with minimal content.". -/
theorem C3_one_message_close_divergence :
    ((closeCurrentTopic (fun _ => [1]) (.ok ⟨"Label", "LLM summary"⟩) "c1" true
        ⟨[], some ⟨"tid", "", none, [⟨"user", "hi", "t0"⟩], 1, "t0", none⟩,
          some "tid", []⟩).2).isSome = true ∧
    ((closeCurrentTopic (fun _ => [1]) (.ok ⟨"Label", "LLM summary"⟩) "c1" true
        ⟨[], some ⟨"tid", "", none, [⟨"user", "hi", "t0"⟩], 1, "t0", none⟩,
          some "tid", []⟩).1.topics.map Topic.summary) = [none] ∧
    ((closeCurrentTopic (fun _ => [1]) (.ok ⟨"Label", "LLM summary"⟩) "c1" false
        ⟨[], some ⟨"tid", "", none, [⟨"user", "hi", "t0"⟩], 1, "t0", none⟩,
          some "tid", []⟩).1.topics.map Topic.summary) = [some "LLM summary"] := by
  refine ⟨?_, ?_, ?_⟩ <;>
    norm_num +decide [closeCurrentTopic, generateAndUpdateTopicSummary, getEmbedding,
      isBlank, setEmb]

/-- C8 counterexample: an LLM-call exception that is not a `ValueError` (the
`except ValueError` at line 170 is the only handler) escapes `update_notepad`
to the caller, so "any failure during update_notepad ... never raises to the
caller" is false on the code. -/
theorem C8_update_notepad_counterexample :
    (updateNotepad (.error .apiError) (.ok ⟨"n"⟩)
        ⟨[], some "old", some "old",
          [⟨"t1", "T", some "s",
            [⟨"user", "hi", "t0"⟩, ⟨"assistant", "yo", "t0"⟩], 2, "t0", some "t1"⟩]⟩).2 =
      some .apiError := by
  decide

/-- C8 (amended): a parse failure (`ValueError`) of the notepad-update LLM
call is caught locally — the previous notepad is retained and nothing is
raised; but an exception of any other type from that call propagates to the
caller (state unchanged), and any exception of the unguarded compression call
propagates after the in-memory notepad has already been replaced (the notepad
file is not written in any failure case). -/
theorem C8_update_notepad_degradation (st : LTM)
    (llmC : Except LlmExn NotepadResponse) :
    (updateNotepad (.error .parseError) llmC st = (st, none)) ∧
    (notepadTopicsWithMessages st ≠ [] →
      updateNotepad (.error .apiError) llmC st = (st, some .apiError)) ∧
    (∀ r e, notepadTopicsWithMessages st ≠ [] →
      maybeCompressNotepad llmC { st with notepad := some r.updatedNotepad } = .error e →
      updateNotepad (.ok r) llmC st =
        ({ st with notepad := some r.updatedNotepad }, some e)) := by
  refine ⟨?_, ?_, ?_⟩
  · by_cases h : notepadTopicsWithMessages st = [] <;> simp [updateNotepad, h]
  · intro h
    simp [updateNotepad, h]
  · intro r e h hc
    simp [updateNotepad, h, hc]

/-- C8 witness: the amended theorem applied to a concrete state in which the
compression call fails after a successful update. -/
theorem C8_update_notepad_degradation_witness :
    updateNotepad (.error .parseError) (.ok ⟨"n"⟩)
        ⟨[], some "old", some "old",
          [⟨"t1", "T", some "s",
            [⟨"user", "hi", "t0"⟩, ⟨"assistant", "yo", "t0"⟩], 2, "t0", some "t1"⟩]⟩ =
      (⟨[], some "old", some "old",
          [⟨"t1", "T", some "s",
            [⟨"user", "hi", "t0"⟩, ⟨"assistant", "yo", "t0"⟩], 2, "t0", some "t1"⟩]⟩,
        none) ∧
    updateNotepad (.error .apiError) (.ok ⟨"n"⟩)
        ⟨[], some "old", some "old",
          [⟨"t1", "T", some "s",
            [⟨"user", "hi", "t0"⟩, ⟨"assistant", "yo", "t0"⟩], 2, "t0", some "t1"⟩]⟩ =
      (⟨[], some "old", some "old",
          [⟨"t1", "T", some "s",
            [⟨"user", "hi", "t0"⟩, ⟨"assistant", "yo", "t0"⟩], 2, "t0", some "t1"⟩]⟩,
        some .apiError) := by
  have h := C8_update_notepad_degradation
      ⟨[], some "old", some "old",
        [⟨"t1", "T", some "s",
          [⟨"user", "hi", "t0"⟩, ⟨"assistant", "yo", "t0"⟩], 2, "t0", some "t1"⟩]⟩
      (.ok ⟨"n"⟩)
  exact ⟨h.1, h.2.1 (by decide)⟩

/-- C9 counterexample: on a turn that closes a topic asynchronously, the
orchestrator joins the summary future (`summary_future.result()`, line 38)
before `return response` (line 55): `summaryAwaited` strictly precedes
`replyReturned` in the turn's own trace, so the claim that the summary is
finalized "not before the user sees topic N's closing reply — the turn that
closed the topic returns its reply without waiting for the summary" is false
on the code. -/
theorem C9_reply_waits_for_summary_counterexample :
    TurnEvent.summaryAwaited ∈ singleTurnChatTrace false true true ∧
    (singleTurnChatTrace false true true).indexOf TurnEvent.summaryAwaited <
      (singleTurnChatTrace false true true).indexOf TurnEvent.replyReturned := by
  decide

/-- C9 (amended): when recording a non-blank turn closes a topic with
asynchronous summary generation, the reply text is generated before the
summary join, the summary and embedding are finalized (the future is joined)
before the turn function returns the reply — hence before the user sees it —
and therefore also before any event of the next turn, in particular topic
N+1's first context fetch. -/
theorem C9_summary_ordering (ca gf : Bool) (h : ca = true)
    (next : List TurnEvent) :
    TurnEvent.summaryAwaited ∈ singleTurnChatTrace false ca gf ∧
    (singleTurnChatTrace false ca gf).indexOf TurnEvent.replyGenerated <
      (singleTurnChatTrace false ca gf).indexOf TurnEvent.summaryAwaited ∧
    (singleTurnChatTrace false ca gf).indexOf TurnEvent.summaryAwaited <
      (singleTurnChatTrace false ca gf).indexOf TurnEvent.replyReturned ∧
    (singleTurnChatTrace false ca gf ++ next).indexOf TurnEvent.summaryAwaited <
      (singleTurnChatTrace false ca gf).length + next.indexOf TurnEvent.contextFetch := by
  subst h
  have hm : TurnEvent.summaryAwaited ∈ singleTurnChatTrace false true gf := by
    cases gf <;> decide
  refine ⟨hm, ?_, ?_, ?_⟩
  · cases gf <;> decide
  · cases gf <;> decide
  · rw [List.indexOf_append_of_mem hm]
    have hlt : (singleTurnChatTrace false true gf).indexOf TurnEvent.summaryAwaited <
        (singleTurnChatTrace false true gf).length := List.indexOf_lt_length.mpr hm
    omega

/-- C9 witness: the amended ordering theorem applied to a concrete closing
turn followed by a concrete next turn. -/
theorem C9_summary_ordering_witness :
    TurnEvent.summaryAwaited ∈ singleTurnChatTrace false true true ∧
    (singleTurnChatTrace false true true).indexOf TurnEvent.replyGenerated <
      (singleTurnChatTrace false true true).indexOf TurnEvent.summaryAwaited ∧
    (singleTurnChatTrace false true true).indexOf TurnEvent.summaryAwaited <
      (singleTurnChatTrace false true true).indexOf TurnEvent.replyReturned ∧
    (singleTurnChatTrace false true true ++
        singleTurnChatTrace false false false).indexOf TurnEvent.summaryAwaited <
      (singleTurnChatTrace false true true).length +
        (singleTurnChatTrace false false false).indexOf TurnEvent.contextFetch :=
  C9_summary_ordering true true rfl (singleTurnChatTrace false false false)


/-- A declared switch presupposes at least 3 messages in the open topic. -/
theorem detectTopicShift_true_len {f : String → List ℚ}
    {llm : Except LlmExn TopicSwitchDecision} {t : Topic} {m : String}
    (h : detectTopicShift f llm (some t) m = true) : 3 ≤ t.messages.length := by
  by_contra hlen
  push_neg at hlen
  simp [detectTopicShift, if_pos hlen] at h

/-- Removing the last two elements of a list that ends with an appended pair
recovers the original list (`messages[:-2]` after two appends). -/
theorem dropLast_pair (l : List Message) (u a : Message) :
    (((l ++ [u]) ++ [a]).dropLast).dropLast = l := by
  simp [List.dropLast_concat]

/-- `_generate_and_update_topic_summary` never touches the message list, the
id, or the close stamp of the topic it decorates. -/
theorem generateAndUpdate_preserves (f : String → List ℚ)
    (lc : Except LlmExn CloseTopicResponse) (tt : Topic) (i : String) :
    (generateAndUpdateTopicSummary f lc tt i).1.messages = tt.messages ∧
    (generateAndUpdateTopicSummary f lc tt i).1.id = tt.id ∧
    (generateAndUpdateTopicSummary f lc tt i).1.closedAt = tt.closedAt := by
  cases lc <;> simp [generateAndUpdateTopicSummary]

/-- Normal form of `add_single_turn` in terms of the effective open topic. -/
theorem addSingleTurn_eq (env : TurnEnv) (exec : Bool) (st : STM)
    (u a : String) (t : Topic) (ht : effectiveOpenTopic env st = t) :
    addSingleTurn env exec st u a =
      (let st2 : STM :=
        { topics := st.topics
          currOpenTopic :=
            some ((t.addMessage ⟨"user", u, env.ts⟩).addMessage ⟨"assistant", a, env.ts⟩)
          currentTopicId :=
            match st.currOpenTopic with
            | none => some env.idA
            | some _ => st.currentTopicId
          topicEmbeddings := st.topicEmbeddings }
      if detectTopicShift env.getEmb env.llmSwitch st2.currOpenTopic u then
        let st3 := st2.withOpen fun tt =>
          if 2 ≤ tt.messages.length then
            { tt with messages := tt.messages.dropLast.dropLast } else tt
        let r := closeCurrentTopic env.getEmb env.llmClose env.closedAt exec st3
        let st4 := startNewTopic env.idB env.createdB r.1
        (st4.withOpen fun tt =>
          (tt.addMessage ⟨"user", u, env.ts⟩).addMessage ⟨"assistant", a, env.ts⟩, r.2)
      else if checkContextWindowLimit st2 then
        let r := closeCurrentTopic env.getEmb env.llmClose env.closedAt exec st2
        (startNewTopic env.idB env.createdB r.1, r.2)
      else (st2, none)) := by
  cases hopen : st.currOpenTopic with
  | none =>
    have hT : t = freshTopic env.idA env.createdA := by
      rw [← ht]; simp [effectiveOpenTopic, hopen]
    subst hT
    simp [addSingleTurn, hopen, startNewTopic, STM.withOpen]
  | some t0 =>
    have hT : t = t0 := by
      rw [← ht]; simp [effectiveOpenTopic, hopen]
    subst hT
    simp [addSingleTurn, hopen, STM.withOpen]


/-- Case analysis of `add_single_turn`: the no-closure, switch and size-limit
paths and their effect on the topic store.  Shared backbone of the C2 and C10
theorems. -/
theorem addSingleTurn_cases (env : TurnEnv) (executor : Bool) (st : STM)
    (u a : String) (t : Topic) (ht : effectiveOpenTopic env st = t) :
    (detectTopicShift env.getEmb env.llmSwitch
        (some ((t.addMessage ⟨"user", u, env.ts⟩).addMessage ⟨"assistant", a, env.ts⟩)) u
          = false →
      ¬ 25000 < ((t.messages.map (·.content.length)).sum + u.length + a.length) →
      (addSingleTurn env executor st u a).1.topics = st.topics ∧
      (addSingleTurn env executor st u a).1.currOpenTopic =
        some ((t.addMessage ⟨"user", u, env.ts⟩).addMessage ⟨"assistant", a, env.ts⟩) ∧
      (addSingleTurn env executor st u a).2 = none) ∧
    (detectTopicShift env.getEmb env.llmSwitch
        (some ((t.addMessage ⟨"user", u, env.ts⟩).addMessage ⟨"assistant", a, env.ts⟩)) u
          = true →
      ∃ tc, (addSingleTurn env executor st u a).1.topics = st.topics ++ [tc] ∧
        tc.messages = t.messages ∧ tc.id = t.id ∧ tc.closedAt = some env.closedAt ∧
        ∃ topen, (addSingleTurn env executor st u a).1.currOpenTopic = some topen ∧
          topen.messages = [⟨"user", u, env.ts⟩, ⟨"assistant", a, env.ts⟩] ∧
          topen.id = env.idB) ∧
    (detectTopicShift env.getEmb env.llmSwitch
        (some ((t.addMessage ⟨"user", u, env.ts⟩).addMessage ⟨"assistant", a, env.ts⟩)) u
          = false →
      25000 < ((t.messages.map (·.content.length)).sum + u.length + a.length) →
      ∃ tc, (addSingleTurn env executor st u a).1.topics = st.topics ++ [tc] ∧
        tc.messages = t.messages ++ [⟨"user", u, env.ts⟩, ⟨"assistant", a, env.ts⟩] ∧
        tc.id = t.id ∧ tc.closedAt = some env.closedAt ∧
        ∃ topen, (addSingleTurn env executor st u a).1.currOpenTopic = some topen ∧
          topen.messages = [] ∧ topen.id = env.idB) := by
  have hsum : (((t.messages ++ [(⟨"user", u, env.ts⟩ : Message)]) ++
      [(⟨"assistant", a, env.ts⟩ : Message)]).map (·.content.length)).sum =
        (t.messages.map (·.content.length)).sum + u.length + a.length := by
    simp [List.sum_append]
    omega
  rw [addSingleTurn_eq env executor st u a t ht]
  refine ⟨?_, ?_, ?_⟩
  · intro hdet hsize
    have hcheck : decide (25000 <
        ((((t.addMessage ⟨"user", u, env.ts⟩).addMessage
          ⟨"assistant", a, env.ts⟩).messages.map (·.content.length)).sum)) = false := by
      simp only [Topic.addMessage, hsum, decide_eq_false_iff_not]
      exact hsize
    simp [hdet, checkContextWindowLimit, hcheck]
  · intro hdet
    have hlen3 : 3 ≤ ((t.addMessage ⟨"user", u, env.ts⟩).addMessage
        ⟨"assistant", a, env.ts⟩).messages.length := detectTopicShift_true_len hdet
    have hlen1 : 1 ≤ t.messages.length := by
      simp [Topic.addMessage] at hlen3
      omega
    have hne : t.messages ≠ [] := by
      intro hcon
      rw [hcon] at hlen1
      simp at hlen1
    have hnl : ¬ t.messages.length < 1 := by omega
    have h2 : 2 ≤ t.messages.length + 1 + 1 := by omega
    simp only [hdet, if_true]
    cases executor with
    | true =>
      refine ⟨{ t with numMessages := t.numMessages + 1 + 1, closedAt := some env.closedAt },
        ?_, by simp, by simp, by simp, ?_⟩
      · simp [STM.withOpen, Topic.addMessage, dropLast_pair, closeCurrentTopic, hne, hnl,
          startNewTopic, h2]
      · exact ⟨((freshTopic env.idB env.createdB).addMessage
            ⟨"user", u, env.ts⟩).addMessage ⟨"assistant", a, env.ts⟩,
          by simp [STM.withOpen, Topic.addMessage, dropLast_pair, closeCurrentTopic, hne,
            hnl, startNewTopic, h2],
          by simp [Topic.addMessage, freshTopic], by simp [Topic.addMessage, freshTopic]⟩
    | false =>
      refine ⟨(generateAndUpdateTopicSummary env.getEmb env.llmClose
          { t with numMessages := t.numMessages + 1 + 1, closedAt := some env.closedAt }
          t.id).1, ?_, ?_, ?_, ?_, ?_⟩
      · simp [STM.withOpen, Topic.addMessage, dropLast_pair, closeCurrentTopic, hne, hnl,
          startNewTopic, h2]
      · simpa using (generateAndUpdate_preserves env.getEmb env.llmClose _ t.id).1
      · simpa using (generateAndUpdate_preserves env.getEmb env.llmClose _ t.id).2.1
      · simpa using (generateAndUpdate_preserves env.getEmb env.llmClose _ t.id).2.2
      · exact ⟨((freshTopic env.idB env.createdB).addMessage
            ⟨"user", u, env.ts⟩).addMessage ⟨"assistant", a, env.ts⟩,
          by simp [STM.withOpen, Topic.addMessage, dropLast_pair, closeCurrentTopic, hne,
            hnl, startNewTopic, h2],
          by simp [Topic.addMessage, freshTopic], by simp [Topic.addMessage, freshTopic]⟩
  · intro hdet hsize
    have hcheck : decide (25000 <
        ((((t.addMessage ⟨"user", u, env.ts⟩).addMessage
          ⟨"assistant", a, env.ts⟩).messages.map (·.content.length)).sum)) = true := by
      simp only [Topic.addMessage, hsum, decide_eq_true_eq]
      exact hsize
    have hne : ((t.addMessage ⟨"user", u, env.ts⟩).addMessage
        ⟨"assistant", a, env.ts⟩).messages ≠ [] := by
      simp [Topic.addMessage]
    have hnl : ¬ ((t.addMessage ⟨"user", u, env.ts⟩).addMessage
        ⟨"assistant", a, env.ts⟩).messages.length < 1 := by
      simp [Topic.addMessage]
    simp only [hdet, Bool.false_eq_true, if_false, checkContextWindowLimit, hcheck, if_true]
    cases executor with
    | true =>
      refine ⟨{ ((t.addMessage ⟨"user", u, env.ts⟩).addMessage ⟨"assistant", a, env.ts⟩)
          with closedAt := some env.closedAt },
        ?_, by simp [Topic.addMessage], by simp [Topic.addMessage],
        by simp [Topic.addMessage], ?_⟩
      · simp [closeCurrentTopic, hne, hnl, startNewTopic]
      · exact ⟨freshTopic env.idB env.createdB,
          by simp [closeCurrentTopic, hne, hnl, startNewTopic],
          by simp [freshTopic], by simp [freshTopic]⟩
    | false =>
      refine ⟨(generateAndUpdateTopicSummary env.getEmb env.llmClose
          { ((t.addMessage ⟨"user", u, env.ts⟩).addMessage ⟨"assistant", a, env.ts⟩)
            with closedAt := some env.closedAt }
          ((t.addMessage ⟨"user", u, env.ts⟩).addMessage ⟨"assistant", a, env.ts⟩).id).1,
        ?_, ?_, ?_, ?_, ?_⟩
      · simp [closeCurrentTopic, hne, hnl, startNewTopic]
      · simpa [Topic.addMessage] using
          (generateAndUpdate_preserves env.getEmb env.llmClose _ _).1
      · simpa [Topic.addMessage] using
          (generateAndUpdate_preserves env.getEmb env.llmClose _ _).2.1
      · simpa using (generateAndUpdate_preserves env.getEmb env.llmClose _ _).2.2
      · exact ⟨freshTopic env.idB env.createdB,
          by simp [closeCurrentTopic, hne, hnl, startNewTopic],
          by simp [freshTopic], by simp [freshTopic]⟩

/-- C2: on a switch-triggered closure the just-appended (user, assistant) pair
is removed from the closing topic before it closes (the closed topic keeps
exactly its previous messages), a new topic is opened, and the same pair is
re-appended to it; on a size-limit closure (total message characters
exceeding 25000) the topic closes with all its messages — the pair included —
intact, and the newly opened topic is empty: no message is moved or
duplicated in the size path. -/
theorem C2_closure_paths (env : TurnEnv) (executor : Bool) (st : STM)
    (u a : String) (t : Topic) (ht : effectiveOpenTopic env st = t) :
    (detectTopicShift env.getEmb env.llmSwitch
        (some ((t.addMessage ⟨"user", u, env.ts⟩).addMessage ⟨"assistant", a, env.ts⟩)) u
          = true →
      ∃ tc, (addSingleTurn env executor st u a).1.topics = st.topics ++ [tc] ∧
        tc.messages = t.messages ∧ tc.id = t.id ∧ tc.closedAt = some env.closedAt ∧
        ∃ topen, (addSingleTurn env executor st u a).1.currOpenTopic = some topen ∧
          topen.messages = [⟨"user", u, env.ts⟩, ⟨"assistant", a, env.ts⟩] ∧
          topen.id = env.idB) ∧
    (detectTopicShift env.getEmb env.llmSwitch
        (some ((t.addMessage ⟨"user", u, env.ts⟩).addMessage ⟨"assistant", a, env.ts⟩)) u
          = false →
      25000 < ((t.messages.map (·.content.length)).sum + u.length + a.length) →
      ∃ tc, (addSingleTurn env executor st u a).1.topics = st.topics ++ [tc] ∧
        tc.messages = t.messages ++ [⟨"user", u, env.ts⟩, ⟨"assistant", a, env.ts⟩] ∧
        tc.id = t.id ∧ tc.closedAt = some env.closedAt ∧
        ∃ topen, (addSingleTurn env executor st u a).1.currOpenTopic = some topen ∧
          topen.messages = [] ∧ topen.id = env.idB) :=
  ⟨(addSingleTurn_cases env executor st u a t ht).2.1,
   (addSingleTurn_cases env executor st u a t ht).2.2⟩

/-- C2 witness: a concrete switch-triggered closure (LLM classifier answers
"switch" on a low-similarity turn appended to a 1-message topic). -/
theorem C2_closure_paths_witness :
    ∃ tc, (addSingleTurn
        ⟨fun s => if s = "newmsg" then [1, 0] else [0, 1],
          .ok ⟨true, "t"⟩, .ok ⟨"L", "S"⟩, "ts1", "ca", "A", "cA", "B", "cB"⟩ true
        ⟨[], some ⟨"tid", "", none, [⟨"user", "x", "t0"⟩], 1, "t0", none⟩,
          some "tid", []⟩ "newmsg" "y").1.topics = [] ++ [tc] ∧
      tc.messages = [⟨"user", "x", "t0"⟩] ∧ tc.id = "tid" ∧ tc.closedAt = some "ca" ∧
      ∃ topen, (addSingleTurn
          ⟨fun s => if s = "newmsg" then [1, 0] else [0, 1],
            .ok ⟨true, "t"⟩, .ok ⟨"L", "S"⟩, "ts1", "ca", "A", "cA", "B", "cB"⟩ true
          ⟨[], some ⟨"tid", "", none, [⟨"user", "x", "t0"⟩], 1, "t0", none⟩,
            some "tid", []⟩ "newmsg" "y").1.currOpenTopic = some topen ∧
        topen.messages = [⟨"user", "newmsg", "ts1"⟩, ⟨"assistant", "y", "ts1"⟩] ∧
        topen.id = "B" := by
  exact (C2_closure_paths
      ⟨fun s => if s = "newmsg" then [1, 0] else [0, 1],
        .ok ⟨true, "t"⟩, .ok ⟨"L", "S"⟩, "ts1", "ca", "A", "cA", "B", "cB"⟩ true
      ⟨[], some ⟨"tid", "", none, [⟨"user", "x", "t0"⟩], 1, "t0", none⟩,
        some "tid", []⟩ "newmsg" "y"
      ⟨"tid", "", none, [⟨"user", "x", "t0"⟩], 1, "t0", none⟩ rfl).1
    (by norm_num +decide [detectTopicShift, topicShiftSimilarity, verifyTopicSwitchWithLlm,
      cosineSim, getEmbedding, isBlank, normSq, dot, Topic.addMessage, pyGtQ])

/-- C10: no turn is dropped or duplicated by `add_single_turn`.  On the
no-closure path the closed-topic store is untouched and the open topic is the
previous one with the pair appended; on the switch path the closing topic
keeps exactly its previous messages and the new open topic holds exactly the
pair; on the size-limit path the most recently closed topic ends with the
pair and the new open topic is empty.  In each case the appended pair is
`{role := "user"}` immediately followed by `{role := "assistant"}`, both
stamped with the same timestamp `env.ts`. -/
theorem C10_turn_preservation (env : TurnEnv) (executor : Bool) (st : STM)
    (u a : String) (t : Topic) (ht : effectiveOpenTopic env st = t) :
    (detectTopicShift env.getEmb env.llmSwitch
        (some ((t.addMessage ⟨"user", u, env.ts⟩).addMessage ⟨"assistant", a, env.ts⟩)) u
          = false →
      ¬ 25000 < ((t.messages.map (·.content.length)).sum + u.length + a.length) →
      (addSingleTurn env executor st u a).1.topics = st.topics ∧
      (addSingleTurn env executor st u a).1.currOpenTopic =
        some ((t.addMessage ⟨"user", u, env.ts⟩).addMessage ⟨"assistant", a, env.ts⟩) ∧
      (addSingleTurn env executor st u a).2 = none) ∧
    (detectTopicShift env.getEmb env.llmSwitch
        (some ((t.addMessage ⟨"user", u, env.ts⟩).addMessage ⟨"assistant", a, env.ts⟩)) u
          = true →
      ∃ tc, (addSingleTurn env executor st u a).1.topics = st.topics ++ [tc] ∧
        tc.messages = t.messages ∧ tc.id = t.id ∧ tc.closedAt = some env.closedAt ∧
        ∃ topen, (addSingleTurn env executor st u a).1.currOpenTopic = some topen ∧
          topen.messages = [⟨"user", u, env.ts⟩, ⟨"assistant", a, env.ts⟩] ∧
          topen.id = env.idB) ∧
    (detectTopicShift env.getEmb env.llmSwitch
        (some ((t.addMessage ⟨"user", u, env.ts⟩).addMessage ⟨"assistant", a, env.ts⟩)) u
          = false →
      25000 < ((t.messages.map (·.content.length)).sum + u.length + a.length) →
      ∃ tc, (addSingleTurn env executor st u a).1.topics = st.topics ++ [tc] ∧
        tc.messages = t.messages ++ [⟨"user", u, env.ts⟩, ⟨"assistant", a, env.ts⟩] ∧
        tc.id = t.id ∧ tc.closedAt = some env.closedAt ∧
        ∃ topen, (addSingleTurn env executor st u a).1.currOpenTopic = some topen ∧
          topen.messages = [] ∧ topen.id = env.idB) :=
  addSingleTurn_cases env executor st u a t ht

/-- C10 witness: a concrete no-closure turn (high-similarity message appended
to a 1-message topic, far below the size budget). -/
theorem C10_turn_preservation_witness :
    (addSingleTurn
        ⟨fun _ => [1, 0], .ok ⟨true, "t"⟩, .ok ⟨"L", "S"⟩, "ts1", "ca", "A", "cA",
          "B", "cB"⟩ true
        ⟨[], some ⟨"tid", "", none, [⟨"user", "x", "t0"⟩], 1, "t0", none⟩,
          some "tid", []⟩ "hello" "reply").1.topics = [] ∧
    (addSingleTurn
        ⟨fun _ => [1, 0], .ok ⟨true, "t"⟩, .ok ⟨"L", "S"⟩, "ts1", "ca", "A", "cA",
          "B", "cB"⟩ true
        ⟨[], some ⟨"tid", "", none, [⟨"user", "x", "t0"⟩], 1, "t0", none⟩,
          some "tid", []⟩ "hello" "reply").1.currOpenTopic =
      some (((⟨"tid", "", none, [⟨"user", "x", "t0"⟩], 1, "t0", none⟩ : Topic).addMessage
        ⟨"user", "hello", "ts1"⟩).addMessage ⟨"assistant", "reply", "ts1"⟩) ∧
    (addSingleTurn
        ⟨fun _ => [1, 0], .ok ⟨true, "t"⟩, .ok ⟨"L", "S"⟩, "ts1", "ca", "A", "cA",
          "B", "cB"⟩ true
        ⟨[], some ⟨"tid", "", none, [⟨"user", "x", "t0"⟩], 1, "t0", none⟩,
          some "tid", []⟩ "hello" "reply").2 = none := by
  exact (C10_turn_preservation
      ⟨fun _ => [1, 0], .ok ⟨true, "t"⟩, .ok ⟨"L", "S"⟩, "ts1", "ca", "A", "cA",
        "B", "cB"⟩ true
      ⟨[], some ⟨"tid", "", none, [⟨"user", "x", "t0"⟩], 1, "t0", none⟩,
        some "tid", []⟩ "hello" "reply"
      ⟨"tid", "", none, [⟨"user", "x", "t0"⟩], 1, "t0", none⟩ rfl).1
    (by norm_num +decide [detectTopicShift, topicShiftSimilarity, verifyTopicSwitchWithLlm,
      cosineSim, getEmbedding, isBlank, normSq, dot, Topic.addMessage, pyGtQ])
    (by decide)


/-- Dict lookup after a dict store: the stored key now maps to the new data,
every other key is untouched. -/
theorem lookupFact_upsertFact (facts : List (String × FactData)) (f k : String)
    (d : FactData) :
    lookupFact (upsertFact facts f d) k = if k = f then some d else lookupFact facts k := by
  induction facts with
  | nil =>
    by_cases h : k = f
    · simp [upsertFact, lookupFact, h]
    · simp [upsertFact, lookupFact, h, Ne.symm h]
  | cons hd tl ih =>
    obtain ⟨k0, v0⟩ := hd
    by_cases h0 : k0 = f
    · subst h0
      by_cases h : k0 = k
      · subst h
        simp [upsertFact, lookupFact]
      · simp [upsertFact, lookupFact, h, Ne.symm h]
    · by_cases h : k0 = k
      · subst h
        simp [upsertFact, lookupFact, h0, Ne.symm h0]
      · simp [upsertFact, lookupFact, h0, h, Ne.symm h, ih]

/-- Any key present after a store was present before or is the stored key. -/
theorem mem_keys_upsertFact {facts : List (String × FactData)} {f x : String}
    {d : FactData} (h : x ∈ (upsertFact facts f d).map Prod.fst) :
    x ∈ facts.map Prod.fst ∨ x = f := by
  induction facts with
  | nil =>
    right
    simpa [upsertFact] using h
  | cons hd tl ih =>
    obtain ⟨k0, v0⟩ := hd
    by_cases h0 : k0 = f
    · subst h0
      have hred : upsertFact ((k0, v0) :: tl) k0 d = (k0, d) :: tl := by
        simp [upsertFact]
      rw [hred] at h
      simp only [List.map_cons, List.mem_cons] at h ⊢
      tauto
    · simp only [upsertFact, if_neg h0, List.map_cons, List.mem_cons] at h ⊢
      rcases h with h | h
      · tauto
      · rcases ih h with h' | h' <;> tauto

/-- A dict store keeps the keys duplicate-free. -/
theorem upsertFact_nodup {facts : List (String × FactData)} (f : String) (d : FactData)
    (h : (facts.map Prod.fst).Nodup) :
    ((upsertFact facts f d).map Prod.fst).Nodup := by
  induction facts with
  | nil => simp [upsertFact]
  | cons hd tl ih =>
    obtain ⟨k0, v0⟩ := hd
    simp only [List.map_cons, List.nodup_cons] at h
    by_cases h0 : k0 = f
    · subst h0
      simpa [upsertFact, List.nodup_cons] using h
    · simp only [upsertFact, if_neg h0, List.map_cons, List.nodup_cons]
      refine ⟨fun hx => ?_, ih h.2⟩
      rcases mem_keys_upsertFact hx with h' | h'
      · exact h.1 h'
      · exact h0 h'

/-- A key absent from the dict looks up to `none`. -/
theorem lookupFact_eq_none {facts : List (String × FactData)} {k : String}
    (h : k ∉ facts.map Prod.fst) : lookupFact facts k = none := by
  induction facts with
  | nil => simp [lookupFact]
  | cons hd tl ih =>
    obtain ⟨k0, v0⟩ := hd
    simp only [List.map_cons, List.mem_cons, not_or] at h
    simp [lookupFact, Ne.symm h.1, ih h.2]

/-- Lookup through a filter over a duplicate-free dict: the binding survives
exactly when the filter keeps it. -/
theorem lookupFact_filter (facts : List (String × FactData))
    (p : String × FactData → Bool) (k : String) (h : (facts.map Prod.fst).Nodup) :
    lookupFact (facts.filter p) k =
      match lookupFact facts k with
      | some d => if p (k, d) then some d else none
      | none => none := by
  induction facts with
  | nil => simp [lookupFact]
  | cons hd tl ih =>
    obtain ⟨k0, v0⟩ := hd
    simp only [List.map_cons, List.nodup_cons] at h
    by_cases hk : k0 = k
    · subst hk
      by_cases hp : p (k0, v0)
      · simp [List.filter_cons, hp, lookupFact]
      · have hnone : lookupFact (tl.filter p) k0 = none := by
          refine lookupFact_eq_none fun hmem => h.1 ?_
          obtain ⟨⟨k1, v1⟩, hm, hk1⟩ := List.mem_map.mp hmem
          exact hk1 ▸ List.mem_map_of_mem Prod.fst (List.mem_of_mem_filter hm)
        simp [List.filter_cons, hp, lookupFact, hnone]
    · by_cases hp : p (k0, v0) <;>
        simp [List.filter_cons, hp, lookupFact, hk, ih h.2]

/-- `getLast?` skips a freshly consed head when the tail is nonempty. -/
theorem getLast?_cons_of_ne_nil {α : Type} {l : List α} (a : α) (h : l ≠ []) :
    (a :: l).getLast? = l.getLast? := by
  cases l with
  | nil => exact absurd rfl h
  | cons b t => exact List.getLast?_cons_cons

/-- Lookup after the upsert loop of `save_facts_to_longterm`: the last
incoming fact for a field with a non-blank value wins (stripped value, clamped
importance, fresh timestamp); a field with no valid incoming fact keeps its
previous binding. -/
theorem lookupFact_foldl_upsertIncoming (nowStr : String) (fs : List UserFact)
    (acc : List (String × FactData)) (fld : String) :
    lookupFact (fs.foldl (upsertIncoming nowStr) acc) fld =
      match (fs.filter fun x => decide (x.field = fld ∧ ¬ pyStrip x.value = "")).getLast? with
      | some x => some ⟨pyStrip x.value, max 1 (min 10 x.importance), some nowStr⟩
      | none => lookupFact acc fld := by
  induction fs generalizing acc with
  | nil => simp
  | cons x rest ih =>
    rw [List.foldl_cons, ih, List.filter_cons]
    by_cases hP : (x.field = fld ∧ ¬ pyStrip x.value = "")
    · have hcond : decide (x.field = fld ∧ ¬ pyStrip x.value = "") = true :=
        decide_eq_true hP
      simp only [hcond, if_true]
      cases hrf : (rest.filter fun y =>
          decide (y.field = fld ∧ ¬ pyStrip y.value = "")).getLast? with
      | some y =>
        have hnn : (rest.filter fun y =>
            decide (y.field = fld ∧ ¬ pyStrip y.value = "")) ≠ [] := by
          intro hc
          rw [hc] at hrf
          simp at hrf
        rw [getLast?_cons_of_ne_nil _ hnn, hrf]
      | none =>
        have hnil : (rest.filter fun y =>
            decide (y.field = fld ∧ ¬ pyStrip y.value = "")) = [] :=
          List.getLast?_eq_none_iff.mp hrf
        rw [hnil]
        simp only [List.getLast?_singleton]
        have : lookupFact (upsertIncoming nowStr acc x) fld =
            some ⟨pyStrip x.value, max 1 (min 10 x.importance), some nowStr⟩ := by
          simp only [upsertIncoming, if_neg hP.2]
          rw [lookupFact_upsertFact]
          simp [hP.1]
        rw [this]
    · have hcond : decide (x.field = fld ∧ ¬ pyStrip x.value = "") = false :=
        decide_eq_false hP
      simp only [hcond, Bool.false_eq_true, if_false]
      have hstep : lookupFact (upsertIncoming nowStr acc x) fld = lookupFact acc fld := by
        by_cases hv : pyStrip x.value = ""
        · simp [upsertIncoming, hv]
        · have hf : ¬ x.field = fld := fun hc => hP ⟨hc, hv⟩
          have hf' : ¬ fld = x.field := fun hc => hf hc.symm
          simp only [upsertIncoming, if_neg hv]
          rw [lookupFact_upsertFact]
          simp [hf']
      rw [hstep]

/-- The upsert loop keeps the facts-table keys duplicate-free. -/
theorem foldl_upsertIncoming_nodup (nowStr : String) (fs : List UserFact)
    (acc : List (String × FactData)) (h : (acc.map Prod.fst).Nodup) :
    ((fs.foldl (upsertIncoming nowStr) acc).map Prod.fst).Nodup := by
  induction fs generalizing acc with
  | nil => simpa
  | cons x rest ih =>
    rw [List.foldl_cons]
    refine ih _ ?_
    by_cases hv : pyStrip x.value = ""
    · simpa [upsertIncoming, hv]
    · simp only [upsertIncoming, if_neg hv]
      exact upsertFact_nodup _ _ h

/-- `_prune_facts` is the survival filter, uniformly (the early return on an
empty table coincides with filtering the empty list). -/
theorem pruneFacts_eq_filter (parseTs : String → Option ℚ) (nowTs : ℚ)
    (maxAgeDays minImportance : ℤ) (l : List (String × FactData)) :
    pruneFacts parseTs nowTs maxAgeDays minImportance l =
      l.filter fun p =>
        factSurvives parseTs (nowTs - (maxAgeDays : ℚ) * 24 * 3600) minImportance p.2 := by
  by_cases h : l = [] <;> simp [pruneFacts, h]

/-- C7: after `save_facts` on a non-empty input, the facts table is the
previous table with every incoming fact whose value is non-blank after
stripping upserted keyed by field — the last incoming fact per field wins,
with stripped value, importance clamped into [1,10] and `updated_at` stamped
to now — followed by pruning, under which a fact survives if and only if its
importance is at least 7, or its timestamp is missing/blank/unparseable (fail
open), or its parsed `updated_at` is within 365 days of now.  Stated as the
complete lookup characterization of the resulting table plus the survival
criterion. -/
theorem C7_save_facts_upsert_prune (nowStr : String) (parseTs : String → Option ℚ)
    (nowTs : ℚ) (st : LTM) (facts : List UserFact)
    (hnd : (st.facts.map Prod.fst).Nodup) (hne : facts ≠ []) :
    (∀ d : FactData,
      factSurvives parseTs (nowTs - 365 * 24 * 3600) 7 d = true ↔
        (7 ≤ d.importance ∨
          match d.updatedAt with
          | none => True
          | some ts => ts = "" ∨
              match parseTs ts with
              | none => True
              | some v => nowTs - 365 * 24 * 3600 ≤ v)) ∧
    (∀ fld, lookupFact (saveFactsToLongterm nowStr parseTs nowTs st facts).facts fld =
      match (facts.filter fun x =>
          decide (x.field = fld ∧ ¬ pyStrip x.value = "")).getLast? with
      | some x =>
        if factSurvives parseTs (nowTs - 365 * 24 * 3600) 7
            ⟨pyStrip x.value, max 1 (min 10 x.importance), some nowStr⟩ then
          some ⟨pyStrip x.value, max 1 (min 10 x.importance), some nowStr⟩
        else none
      | none =>
        match lookupFact st.facts fld with
        | some d =>
          if factSurvives parseTs (nowTs - 365 * 24 * 3600) 7 d then some d else none
        | none => none) := by
  constructor
  · intro d
    unfold factSurvives
    cases hup : d.updatedAt with
    | none =>
      simp
    | some ts =>
      by_cases hts : ts = ""
      · simp [hts]
      · cases hp : parseTs ts with
        | none => simp [hts, hp]
        | some v => simp [hts, hp]
  · intro fld
    have hcast : ((365 : ℤ) : ℚ) = (365 : ℚ) := by norm_num
    simp only [saveFactsToLongterm, if_neg hne]
    rw [pruneFacts_eq_filter]
    rw [lookupFact_filter _ _ _ (foldl_upsertIncoming_nodup nowStr facts st.facts hnd)]
    rw [lookupFact_foldl_upsertIncoming]
    rw [hcast]
    cases hg : (facts.filter fun x =>
        decide (x.field = fld ∧ ¬ pyStrip x.value = "")).getLast? with
    | some x => simp [hg]
    | none => simp only [hg]

/-- C7 witness: saving field "name" with "Alice" and then "Alicia" leaves
only "Alicia" (with clamped importance 9 and the fresh timestamp), obtained
by applying `C7_save_facts_upsert_prune` to the second save. -/
theorem C7_save_facts_upsert_prune_witness :
    lookupFact (saveFactsToLongterm "now" (fun _ => some 0) 0
        (saveFactsToLongterm "now" (fun _ => some 0) 0 ⟨[], none, none, []⟩
          [⟨"name", "Alice", 10⟩])
        [⟨"name", "Alicia", 9⟩]).facts "name" =
      some ⟨"Alicia", 9, some "now"⟩ := by
  have h := (C7_save_facts_upsert_prune "now" (fun _ => some 0) 0
      (saveFactsToLongterm "now" (fun _ => some 0) 0 ⟨[], none, none, []⟩
        [⟨"name", "Alice", 10⟩])
      [⟨"name", "Alicia", 9⟩]
      (by norm_num +decide [saveFactsToLongterm, pruneFacts, factSurvives, upsertIncoming,
        upsertFact, pyStrip])
      (by decide)).2 "name"
  rw [h]
  norm_num +decide [pyStrip, factSurvives]

/-- Specification of CPython's binary insertion point: on a `v`-sorted list,
with a comparator that agrees with `v` at the probed element, the returned
position splits the list into a prefix of elements not above `v x` and a
suffix of elements strictly above `v x`. -/
theorem bisect_spec {α : Type} (ltb : α → α → Bool) (v : α → ℝ) (x : α) (l : List α)
    (hx : ∀ y ∈ l, (ltb x y = true ↔ v x < v y))
    (hsort : l.Pairwise fun a b => v a ≤ v b)
    (lo hi : Nat) (hlh : lo ≤ hi) (hhi : hi ≤ l.length)
    (hto : ∀ b ∈ l.take lo, v b ≤ v x)
    (hdo : ∀ b ∈ l.drop hi, v x < v b) :
    lo ≤ bisect ltb x l lo hi ∧ bisect ltb x l lo hi ≤ hi ∧
    (∀ b ∈ l.take (bisect ltb x l lo hi), v b ≤ v x) ∧
    (∀ b ∈ l.drop (bisect ltb x l lo hi), v x < v b) := by
  by_cases h : lo < hi
  · have hmid1 : lo ≤ (lo + hi) / 2 := by omega
    have hmid2 : (lo + hi) / 2 < hi := by omega
    have hmlen : (lo + hi) / 2 < l.length := lt_of_lt_of_le hmid2 hhi
    have hgetD : l.getD ((lo + hi) / 2) x = l[(lo + hi) / 2] :=
      List.getD_eq_getElem l x hmlen
    have hmem : l[(lo + hi) / 2] ∈ l := List.getElem_mem hmlen
    rw [bisect, dif_pos h]
    simp only [hgetD]
    by_cases hb : ltb x l[(lo + hi) / 2] = true
    · have hvx : v x < v l[(lo + hi) / 2] := (hx _ hmem).mp hb
      have hdo' : ∀ b ∈ l.drop ((lo + hi) / 2), v x < v b := by
        intro b hbm
        rw [List.drop_eq_getElem_cons hmlen] at hbm
        rcases List.mem_cons.mp hbm with rfl | hb'
        · exact hvx
        · have hpd : (l.drop ((lo + hi) / 2)).Pairwise fun a b => v a ≤ v b :=
            hsort.sublist (List.drop_sublist _ l)
          rw [List.drop_eq_getElem_cons hmlen] at hpd
          have := (List.pairwise_cons.mp hpd).1 b hb'
          linarith
      have hrec := bisect_spec ltb v x l hx hsort lo ((lo + hi) / 2) hmid1 hmlen.le
        hto hdo'
      simp only [hb, if_true]
      exact ⟨hrec.1, le_trans hrec.2.1 hmid2.le, hrec.2.2⟩
    · have hvge : v l[(lo + hi) / 2] ≤ v x := by
        rcases lt_or_le (v x) (v l[(lo + hi) / 2]) with hlt | hle
        · exact absurd ((hx _ hmem).mpr hlt) hb
        · exact hle
      have hto' : ∀ b ∈ l.take ((lo + hi) / 2 + 1), v b ≤ v x := by
        intro b hbm
        rw [List.take_succ] at hbm
        rcases List.mem_append.mp hbm with hb' | hb'
        · have hps : ((l.take ((lo + hi) / 2)) ++ (l.drop ((lo + hi) / 2))).Pairwise
              fun a b => v a ≤ v b := by
            rw [List.take_append_drop]
            exact hsort
          have hcross := (List.pairwise_append.mp hps).2.2 b hb' l[(lo + hi) / 2]
            (by rw [List.drop_eq_getElem_cons hmlen]; exact List.mem_cons_self _ _)
          linarith
        · have : b = l[(lo + hi) / 2] := by
            simpa [List.getElem?_eq_getElem hmlen] using hb'
          rw [this]
          exact hvge
      have hrec := bisect_spec ltb v x l hx hsort ((lo + hi) / 2 + 1) hi (by omega) hhi
        hto' hdo
      rw [Bool.not_eq_true] at hb
      rw [hb]
      simp only [Bool.false_eq_true, if_false]
      exact ⟨le_trans (by omega) hrec.1, hrec.2.1, hrec.2.2⟩
  · rw [bisect, dif_neg h]
    have : lo = hi := by omega
    subst this
    exact ⟨le_refl _, le_refl _, hto, hdo⟩
termination_by hi - lo
decreasing_by
  all_goals omega

/-- Binary insertion inserts the element, permuting nothing else. -/
theorem binInsert_perm {α : Type} (ltb : α → α → Bool) (x : α) (l : List α) :
    (binInsert ltb x l).Perm (x :: l) := by
  unfold binInsert
  have h : (l.take (bisect ltb x l 0 l.length) ++
      x :: l.drop (bisect ltb x l 0 l.length)).Perm
        (x :: (l.take (bisect ltb x l 0 l.length) ++
          l.drop (bisect ltb x l 0 l.length))) := List.perm_middle
  rwa [List.take_append_drop] at h

/-- Binary insertion into a `v`-sorted list yields a `v`-sorted list, for a
comparator that agrees with `v` on the inserted element against the list. -/
theorem binInsert_sorted {α : Type} (ltb : α → α → Bool) (v : α → ℝ) (x : α)
    (l : List α) (hx : ∀ y ∈ l, (ltb x y = true ↔ v x < v y))
    (hsort : l.Pairwise fun a b => v a ≤ v b) :
    (binInsert ltb x l).Pairwise fun a b => v a ≤ v b := by
  obtain ⟨-, -, h3, h4⟩ := bisect_spec ltb v x l hx hsort 0 l.length (Nat.zero_le _)
    le_rfl (by simp) (by simp)
  unfold binInsert
  rw [List.pairwise_append]
  refine ⟨hsort.sublist (List.take_sublist _ _), ?_, ?_⟩
  · rw [List.pairwise_cons]
    exact ⟨fun b hb => le_of_lt (h4 b hb), hsort.sublist (List.drop_sublist _ _)⟩
  · intro a ha b hb
    rcases List.mem_cons.mp hb with rfl | hb'
    · exact h3 a ha
    · exact le_trans (h3 a ha) (le_of_lt (h4 b hb'))

/-- Binary insertion of a class member appends it after every class member
already present (rightmost/stable position). -/
theorem binInsert_filter_true {α : Type} (ltb : α → α → Bool) (v : α → ℝ) (x : α)
    (l : List α) (hx : ∀ y ∈ l, (ltb x y = true ↔ v x < v y))
    (hsort : l.Pairwise fun a b => v a ≤ v b)
    (c : α → Bool) (r : ℝ) (hcl : ∀ a ∈ l, c a = true → v a = r)
    (hcx : c x = true) (hvx : v x = r) :
    (binInsert ltb x l).filter c = l.filter c ++ [x] := by
  obtain ⟨-, -, -, h4⟩ := bisect_spec ltb v x l hx hsort 0 l.length (Nat.zero_le _)
    le_rfl (by simp) (by simp)
  have hdropnil : (l.drop (bisect ltb x l 0 l.length)).filter c = [] := by
    rw [List.filter_eq_nil_iff]
    intro a ha hca
    have hva : v a = r :=
      hcl a (List.mem_of_mem_drop ha) hca
    have := h4 a ha
    rw [hva, hvx] at this
    exact absurd this (lt_irrefl r)
  unfold binInsert
  rw [List.filter_append, List.filter_cons]
  simp only [hcx, if_true]
  conv_rhs => rw [← List.take_append_drop (bisect ltb x l 0 l.length) l]
  rw [List.filter_append, hdropnil]
  simp

/-- Binary insertion of an element the filter drops leaves the filtered list
unchanged. -/
theorem binInsert_filter_false {α : Type} (ltb : α → α → Bool) (x : α) (l : List α)
    (c : α → Bool) (hcx : c x = false) :
    (binInsert ltb x l).filter c = l.filter c := by
  unfold binInsert
  rw [List.filter_append, List.filter_cons]
  simp only [hcx, Bool.false_eq_true, if_false]
  rw [← List.filter_append, List.take_append_drop]

/-- The insertion fold is a permutation of initial segment plus input,
whatever the comparator does. -/
theorem foldl_binInsert_perm {α : Type} (ltb : α → α → Bool) :
    ∀ (xs acc : List α),
      (xs.foldl (fun ac x => binInsert ltb x ac) acc).Perm (acc ++ xs) := by
  intro xs
  induction xs with
  | nil => intro acc; simp
  | cons x rest ih =>
    intro acc
    exact (ih (binInsert ltb x acc)).trans
      (((binInsert_perm ltb x acc).append_right rest).trans List.perm_middle.symm)

/-- The insertion fold of `binarysort`, for a comparator that agrees with a
real-valued key on a master list `L`: the accumulated list stays sorted, and
every key-equality class appears in arrival order (each insertion lands after
all existing class members). -/
theorem binSortAsc_go {α : Type} (ltb : α → α → Bool) (v : α → ℝ) (L : List α)
    (hcons : ∀ x ∈ L, ∀ y ∈ L, (ltb x y = true ↔ v x < v y)) :
    ∀ (xs acc : List α), (∀ y ∈ xs, y ∈ L) → (∀ y ∈ acc, y ∈ L) →
      acc.Pairwise (fun a b => v a ≤ v b) →
      (xs.foldl (fun ac x => binInsert ltb x ac) acc).Pairwise
        (fun a b => v a ≤ v b) ∧
      ∀ (c : α → Bool) (r : ℝ), (∀ a ∈ L, c a = true → v a = r) →
        (xs.foldl (fun ac x => binInsert ltb x ac) acc).filter c =
          acc.filter c ++ xs.filter c := by
  intro xs
  induction xs with
  | nil =>
    intro acc _ _ hacc
    exact ⟨hacc, fun c r _ => by simp⟩
  | cons x rest ih =>
    intro acc hxs haccL hacc
    have hxL : x ∈ L := hxs x (List.mem_cons_self _ _)
    have hxacc : ∀ y ∈ acc, (ltb x y = true ↔ v x < v y) := fun y hy =>
      hcons x hxL y (haccL y hy)
    have hsorted' : (binInsert ltb x acc).Pairwise fun a b => v a ≤ v b :=
      binInsert_sorted ltb v x acc hxacc hacc
    have hperm' : (binInsert ltb x acc).Perm (x :: acc) := binInsert_perm ltb x acc
    have hmem' : ∀ y ∈ binInsert ltb x acc, y ∈ L := by
      intro y hy
      rcases List.mem_cons.mp (hperm'.mem_iff.mp hy) with rfl | hy'
      · exact hxL
      · exact haccL y hy'
    obtain ⟨ih1, ih2⟩ := ih (binInsert ltb x acc)
      (fun y hy => hxs y (List.mem_cons_of_mem _ hy)) hmem' hsorted'
    refine ⟨ih1, ?_⟩
    intro c r hcr
    rw [List.foldl_cons] at *
    rw [ih2 c r hcr, List.filter_cons]
    by_cases hcx : c x = true
    · rw [binInsert_filter_true ltb v x acc hxacc hacc c r
        (fun a ha hca => hcr a (haccL a ha) hca) hcx (hcr x hxL hcx)]
      simp [hcx]
    · rw [binInsert_filter_false ltb x acc c (Bool.not_eq_true _ |>.mp hcx)]
      simp [hcx]

/-- `list.sort(reverse=True)` is a permutation of its input. -/
theorem pySortDesc_perm {α : Type} (ltb : α → α → Bool) (L : List α) :
    (pySortDesc ltb L).Perm L := by
  unfold pySortDesc binSortAsc
  have h := foldl_binInsert_perm ltb L.reverse []
  exact (List.reverse_perm _).trans (h.trans (by simp))

/-- `list.sort(reverse=True)` over a comparator that agrees with a real key
on the list: descending-sorted output, and every key-equality class keeps its
encounter order (stability). -/
theorem pySortDesc_spec {α : Type} (ltb : α → α → Bool) (v : α → ℝ) (L : List α)
    (hcons : ∀ x ∈ L, ∀ y ∈ L, (ltb x y = true ↔ v x < v y)) :
    (pySortDesc ltb L).Pairwise (fun a b => v b ≤ v a) ∧
    ∀ (c : α → Bool) (r : ℝ), (∀ a ∈ L, c a = true → v a = r) →
      (pySortDesc ltb L).filter c = L.filter c := by
  obtain ⟨h1, h2⟩ := binSortAsc_go ltb v L hcons L.reverse [] (by simp) (by simp)
    List.Pairwise.nil
  constructor
  · unfold pySortDesc binSortAsc
    rw [List.pairwise_reverse]
    exact h1
  · intro c r hcr
    unfold pySortDesc binSortAsc
    rw [List.filter_reverse, h2 c r hcr]
    simp [List.filter_reverse]

/-- The zero vector has zero squared norm. -/
theorem normSq_replicate_zero (n : Nat) : normSq (List.replicate n 0) = 0 := by
  induction n with
  | zero => simp [normSq, dot]
  | succ k ih =>
    simp only [List.replicate_succ, normSq, dot, List.zipWith_cons_cons, List.sum_cons]
    simp only [normSq, dot] at ih
    simp [ih]

/-- Every topic the retriever returns has a stored embedding whose similarity
to the query embedding is a value (not NaN) strictly above the threshold in
the decidable comparison. -/
theorem mem_findRelevantTopics {f : String → List ℚ} {query : String}
    {topics : List Topic} {embeddings : String → Option (List ℚ)} {maxK : Nat}
    {thr : ℚ} {t : Topic}
    (h : t ∈ findRelevantTopics f query topics embeddings maxK thr) :
    ∃ e d n, embeddings t.id = some e ∧
      cosineSim (getEmbedding f query) e = some (d, n) ∧ 0 < n ∧
      pyGtQ (some (d, n)) thr = true := by
  unfold findRelevantTopics at h
  by_cases hc : topics = [] ∨ isBlank query = true
  · rw [if_pos hc] at h
    simp at h
  · rw [if_neg hc] at h
    have ht := List.mem_of_mem_take h
    obtain ⟨p, hp, hpt⟩ := List.mem_map.mp ht
    have hfp := List.mem_filter.mp hp
    have hps : p ∈ relevanceScores (getEmbedding f query) topics embeddings :=
      (pySortDesc_perm pyLtKey _).mem_iff.mp hfp.1
    obtain ⟨t', ht', he⟩ := List.mem_filterMap.mp hps
    obtain ⟨e, hee, hpe⟩ := Option.map_eq_some'.mp he
    have hteq : t' = t := by rw [← hpe] at hpt; simpa using hpt
    subst hteq
    cases hcs : cosineSim (getEmbedding f query) e with
    | none =>
      rw [← hpe, hcs] at hfp
      simp [pyGtQ] at hfp
    | some dn =>
      obtain ⟨d, n⟩ := dn
      refine ⟨e, d, n, hee, hcs, cosineSim_pos hcs, ?_⟩
      have := hfp.2
      rw [← hpe, hcs] at this
      exact this

/-- With a nonzero-norm query embedding and nonzero-norm stored embeddings,
every score entry is a similarity value with positive carried denominator. -/
theorem relevanceScores_not_nan {f : String → List ℚ} {query : String}
    {topics : List Topic} {embeddings : String → Option (List ℚ)}
    (hq : normSq (getEmbedding f query) ≠ 0)
    (hemb : ∀ t ∈ topics, ∀ e, embeddings t.id = some e → normSq e ≠ 0) :
    ∀ p ∈ relevanceScores (getEmbedding f query) topics embeddings,
      ∃ d n, p.1 = some (d, n) ∧ 0 < n := by
  intro p hp
  obtain ⟨t', ht', he⟩ := List.mem_filterMap.mp hp
  obtain ⟨e, hee, hpe⟩ := Option.map_eq_some'.mp he
  have hne : normSq (getEmbedding f query) * normSq e ≠ 0 :=
    mul_ne_zero hq (hemb t' ht' e hee)
  have hpos : 0 < normSq (getEmbedding f query) * normSq e :=
    lt_of_le_of_ne (mul_nonneg (normSq_nonneg _) (normSq_nonneg _)) (Ne.symm hne)
  refine ⟨dot (getEmbedding f query) e, normSq (getEmbedding f query) * normSq e, ?_, hpos⟩
  rw [← hpe]
  simp [cosineSim, hne]

/-- On a NaN-free score list the Python comparator agrees with the real key. -/
theorem scores_pyLtKey_iff {L : List (Sim × Topic)}
    (hnn : ∀ p ∈ L, ∃ d n, p.1 = some (d, n) ∧ 0 < n) :
    ∀ p ∈ L, ∀ q ∈ L, (pyLtKey p q = true ↔ simKeyVal p < simKeyVal q) := by
  intro p hp q hq
  obtain ⟨d₁, n₁, hp1, hn₁⟩ := hnn p hp
  obtain ⟨d₂, n₂, hq1, hn₂⟩ := hnn q hq
  unfold pyLtKey
  rw [hp1, hq1]
  simp only [simKeyVal, hp1, hq1]
  exact pyLt_eq_true_iff d₁ n₁ d₂ n₂ hn₁ hn₂

/-- On a NaN-free score list, membership in a `simEqB` equality class pins
the real key value. -/
theorem simEqB_class_val {L : List (Sim × Topic)}
    (hnn : ∀ p ∈ L, ∃ d n, p.1 = some (d, n) ∧ 0 < n) (d₀ n₀ : ℚ) (h₀ : 0 < n₀) :
    ∀ p ∈ L, simEqB p.1 (some (d₀, n₀)) = true →
      simKeyVal p = (d₀ : ℝ) / Real.sqrt (n₀ : ℝ) := by
  intro p hp hc
  obtain ⟨d, n, hp1, hn⟩ := hnn p hp
  rw [hp1] at hc
  simp only [simEqB, Bool.and_eq_true, Bool.not_eq_true'] at hc
  have h1 : ¬ ((d : ℝ) / Real.sqrt (n : ℝ) < (d₀ : ℝ) / Real.sqrt (n₀ : ℝ)) := by
    intro hlt
    rw [← pyLt_eq_true_iff d n d₀ n₀ hn h₀] at hlt
    rw [hlt] at hc
    exact absurd hc.1 (by simp)
  have h2 : ¬ ((d₀ : ℝ) / Real.sqrt (n₀ : ℝ) < (d : ℝ) / Real.sqrt (n : ℝ)) := by
    intro hlt
    rw [← pyLt_eq_true_iff d₀ n₀ d n h₀ hn] at hlt
    rw [hlt] at hc
    exact absurd hc.2 (by simp)
  simp only [simKeyVal, hp1]
  linarith [lt_or_le ((d : ℝ) / Real.sqrt (n : ℝ)) ((d₀ : ℝ) / Real.sqrt (n₀ : ℝ))]

/-- C6: a zero-norm operand (such as the 1536-dimensional zero vector
`get_embedding` produces for blank text) makes `cosine_similarity`
undefined — NaN, the `none` value of the model; and for every retrieval call
a NaN comparison is non-matching: every topic the retriever returns has a
stored embedding whose similarity to the query embedding is a value, so no
NaN-scored topic is ever included and no NaN reaches the caller. -/
theorem C6_nan_non_matching :
    (∀ a b : List ℚ, (normSq a = 0 ∨ normSq b = 0) → cosineSim a b = none) ∧
    (∀ (g : String → List ℚ) (text : String) (a : List ℚ), isBlank text = true →
      cosineSim a (getEmbedding g text) = none) ∧
    (∀ (f : String → List ℚ) (query : String) (topics : List Topic)
      (embeddings : String → Option (List ℚ)) (maxK : Nat) (thr : ℚ),
      ∀ t ∈ findRelevantTopics f query topics embeddings maxK thr,
        ∃ e, embeddings t.id = some e ∧
          cosineSim (getEmbedding f query) e ≠ none) := by
  refine ⟨?_, ?_, ?_⟩
  · intro a b h
    have hz : normSq a * normSq b = 0 := by
      rcases h with h | h <;> simp [h]
    simp [cosineSim, hz]
  · intro g text a h
    have : getEmbedding g text = List.replicate 1536 0 := by
      simp [getEmbedding, h]
    rw [this]
    have hz : normSq a * normSq (List.replicate 1536 0) = 0 := by
      rw [normSq_replicate_zero, mul_zero]
    rw [cosineSim, if_pos hz]
  · intro f query topics embeddings maxK thr t ht
    obtain ⟨e, d, n, hee, hcs, -, -⟩ := mem_findRelevantTopics ht
    exact ⟨e, hee, by rw [hcs]; simp⟩

/-- C5 (amended): the shared relevance retriever returns empty on a blank
query or empty topic collection; its result never exceeds `max_k`; topics
without a stored embedding are skipped and every returned topic's similarity
is a value strictly above the caller's threshold (as a real number); and —
provided the query embedding and every stored embedding in use have nonzero
norm, so that no NaN similarity arises — the kept score list is sorted by
descending similarity with equal scores keeping encounter order (stability),
the returned topics being its projection truncated to `max_k`.  (With a
zero-norm embedding present, the NaN entry is still excluded but can leave
the remaining results out of descending order; see the counterexample.) -/
theorem C5_retriever_contract (f : String → List ℚ) (query : String)
    (topics : List Topic) (embeddings : String → Option (List ℚ)) (maxK : Nat)
    (thr : ℚ) :
    ((topics = [] ∨ isBlank query = true) →
      findRelevantTopics f query topics embeddings maxK thr = []) ∧
    (¬ (topics = [] ∨ isBlank query = true) →
      findRelevantTopics f query topics embeddings maxK thr =
        (((relevanceSorted (getEmbedding f query) topics embeddings).filter
          fun p => pyGtQ p.1 thr).map (·.2)).take maxK) ∧
    (findRelevantTopics f query topics embeddings maxK thr).length ≤ maxK ∧
    (∀ t ∈ findRelevantTopics f query topics embeddings maxK thr,
      ∃ e d n, embeddings t.id = some e ∧
        cosineSim (getEmbedding f query) e = some (d, n) ∧
        (thr : ℝ) < (d : ℝ) / Real.sqrt (n : ℝ)) ∧
    (normSq (getEmbedding f query) ≠ 0 →
      (∀ t ∈ topics, ∀ e, embeddings t.id = some e → normSq e ≠ 0) →
      (((relevanceSorted (getEmbedding f query) topics embeddings).filter
          fun p => pyGtQ p.1 thr).Pairwise fun p q => simKeyVal q ≤ simKeyVal p) ∧
      (∀ d₀ n₀ : ℚ, 0 < n₀ →
        (relevanceSorted (getEmbedding f query) topics embeddings).filter
            (fun p => simEqB p.1 (some (d₀, n₀))) =
          (relevanceScores (getEmbedding f query) topics embeddings).filter
            (fun p => simEqB p.1 (some (d₀, n₀))))) := by
  refine ⟨?_, ?_, ?_, ?_, ?_⟩
  · intro h
    simp [findRelevantTopics, h]
  · intro h
    unfold findRelevantTopics
    rw [if_neg h]
  · unfold findRelevantTopics
    by_cases h : topics = [] ∨ isBlank query = true
    · simp [h]
    · rw [if_neg h]
      exact List.length_take_le _ _
  · intro t ht
    obtain ⟨e, d, n, hee, hcs, hn, hgt⟩ := mem_findRelevantTopics ht
    exact ⟨e, d, n, hee, hcs, (pyGtQ_eq_true_iff d n thr hn).mp hgt⟩
  · intro hq hemb
    have hnn := relevanceScores_not_nan hq hemb
    have hcons := scores_pyLtKey_iff hnn
    obtain ⟨hsorted, hstable⟩ := pySortDesc_spec pyLtKey simKeyVal
      (relevanceScores (getEmbedding f query) topics embeddings) hcons
    refine ⟨?_, ?_⟩
    · exact hsorted.sublist (List.filter_sublist _)
    · intro d₀ n₀ h₀
      exact hstable _ _ (simEqB_class_val hnn d₀ n₀ h₀)

/-- A degenerate binary search window returns its lower bound. -/
theorem bisect_same {α : Type} (lt : α → α → Bool) (x : α) (l : List α) (n : Nat) :
    bisect lt x l n n = n := by
  rw [bisect]
  simp

/-- C5 counterexample: with a zero-norm stored embedding between two value
embeddings, the retriever returns the topics with similarities 3/5 and then
4/5 — in that order — so the returned topics are NOT sorted by descending
similarity (the claim would require the 4/5 topic first).  This mirrors
CPython exactly: `sort(reverse=True)` reverses, binary-insertion sorts, and
reverses again, and every comparison against the NaN entry is false. -/
theorem C5_sort_counterexample :
    findRelevantTopics (fun _ => [1, 0]) "q"
      [⟨"t1", "N1", some "s1", [], 0, "c1", some "e1"⟩,
       ⟨"t2", "N2", some "s2", [], 0, "c2", some "e2"⟩,
       ⟨"t3", "N3", some "s3", [], 0, "c3", some "e3"⟩]
      (fun i => if i = "t1" then some [3, 4] else if i = "t2" then some [0, 0]
        else if i = "t3" then some [4, 3] else none) 2 (1 / 2) =
      [⟨"t1", "N1", some "s1", [], 0, "c1", some "e1"⟩,
       ⟨"t3", "N3", some "s3", [], 0, "c3", some "e3"⟩] ∧
    cosineSim (getEmbedding (fun _ => [1, 0]) "q") [3, 4] = some (3, 25) ∧
    cosineSim (getEmbedding (fun _ => [1, 0]) "q") [4, 3] = some (4, 25) ∧
    ((3 : ℚ) : ℝ) / Real.sqrt ((25 : ℚ) : ℝ) < ((4 : ℚ) : ℝ) / Real.sqrt ((25 : ℚ) : ℝ) := by
  have hqe : getEmbedding (fun _ => [(1 : ℚ), 0]) "q" = [1, 0] := by
    norm_num +decide [getEmbedding, isBlank]
  have hs : relevanceScores [1, 0]
      [⟨"t1", "N1", some "s1", [], 0, "c1", some "e1"⟩,
       ⟨"t2", "N2", some "s2", [], 0, "c2", some "e2"⟩,
       ⟨"t3", "N3", some "s3", [], 0, "c3", some "e3"⟩]
      (fun i => if i = "t1" then some [3, 4] else if i = "t2" then some [0, 0]
        else if i = "t3" then some [4, 3] else none) =
      [(some (3, 25), ⟨"t1", "N1", some "s1", [], 0, "c1", some "e1"⟩),
       (none, ⟨"t2", "N2", some "s2", [], 0, "c2", some "e2"⟩),
       (some (4, 25), ⟨"t3", "N3", some "s3", [], 0, "c3", some "e3"⟩)] := by
    norm_num +decide [relevanceScores, List.filterMap_cons, cosineSim, normSq, dot]
  have hb1 : bisect pyLtKey
      ((none : Sim), (⟨"t2", "N2", some "s2", [], 0, "c2", some "e2"⟩ : Topic))
      [((some (4, 25) : Sim), (⟨"t3", "N3", some "s3", [], 0, "c3", some "e3"⟩ : Topic))]
      0 1 = 1 := by
    rw [bisect, dif_pos (by norm_num)]
    norm_num [List.getD_cons_zero, pyLtKey, pyLt, bisect_same]
  have hb2 : bisect pyLtKey
      ((some (3, 25) : Sim), (⟨"t1", "N1", some "s1", [], 0, "c1", some "e1"⟩ : Topic))
      [((some (4, 25) : Sim), (⟨"t3", "N3", some "s3", [], 0, "c3", some "e3"⟩ : Topic)),
       ((none : Sim), (⟨"t2", "N2", some "s2", [], 0, "c2", some "e2"⟩ : Topic))]
      0 2 = 2 := by
    rw [bisect, dif_pos (by norm_num)]
    norm_num [List.getD_cons_zero, List.getD_cons_succ, pyLtKey, pyLt, bisect_same]
  have hi1 : binInsert pyLtKey
      ((some (4, 25) : Sim), (⟨"t3", "N3", some "s3", [], 0, "c3", some "e3"⟩ : Topic))
      [] = [(some (4, 25), ⟨"t3", "N3", some "s3", [], 0, "c3", some "e3"⟩)] := by
    norm_num [binInsert, bisect_same]
  have hi2 : binInsert pyLtKey
      ((none : Sim), (⟨"t2", "N2", some "s2", [], 0, "c2", some "e2"⟩ : Topic))
      [((some (4, 25) : Sim), (⟨"t3", "N3", some "s3", [], 0, "c3", some "e3"⟩ : Topic))] =
      [(some (4, 25), ⟨"t3", "N3", some "s3", [], 0, "c3", some "e3"⟩),
       (none, ⟨"t2", "N2", some "s2", [], 0, "c2", some "e2"⟩)] := by
    norm_num [binInsert, hb1]
  have hi3 : binInsert pyLtKey
      ((some (3, 25) : Sim), (⟨"t1", "N1", some "s1", [], 0, "c1", some "e1"⟩ : Topic))
      [((some (4, 25) : Sim), (⟨"t3", "N3", some "s3", [], 0, "c3", some "e3"⟩ : Topic)),
       ((none : Sim), (⟨"t2", "N2", some "s2", [], 0, "c2", some "e2"⟩ : Topic))] =
      [(some (4, 25), ⟨"t3", "N3", some "s3", [], 0, "c3", some "e3"⟩),
       (none, ⟨"t2", "N2", some "s2", [], 0, "c2", some "e2"⟩),
       (some (3, 25), ⟨"t1", "N1", some "s1", [], 0, "c1", some "e1"⟩)] := by
    norm_num [binInsert, hb2]
  have hsort : pySortDesc pyLtKey
      [((some (3, 25) : Sim), (⟨"t1", "N1", some "s1", [], 0, "c1", some "e1"⟩ : Topic)),
       ((none : Sim), (⟨"t2", "N2", some "s2", [], 0, "c2", some "e2"⟩ : Topic)),
       ((some (4, 25) : Sim), (⟨"t3", "N3", some "s3", [], 0, "c3", some "e3"⟩ : Topic))] =
      [(some (3, 25), ⟨"t1", "N1", some "s1", [], 0, "c1", some "e1"⟩),
       (none, ⟨"t2", "N2", some "s2", [], 0, "c2", some "e2"⟩),
       (some (4, 25), ⟨"t3", "N3", some "s3", [], 0, "c3", some "e3"⟩)] := by
    unfold pySortDesc binSortAsc
    simp only [List.reverse_cons, List.reverse_nil, List.nil_append, List.cons_append,
      List.foldl_cons, List.foldl_nil]
    rw [hi1, hi2, hi3]
    norm_num
  have hsqrt : Real.sqrt ((25 : ℚ) : ℝ) = 5 := by
    rw [show ((25 : ℚ) : ℝ) = (5 : ℝ) ^ 2 by norm_num]
    exact Real.sqrt_sq (by norm_num)
  refine ⟨?_, ?_, ?_, ?_⟩
  · unfold findRelevantTopics
    rw [if_neg (by norm_num +decide [isBlank])]
    rw [hqe]
    unfold relevanceSorted
    rw [hs, hsort]
    norm_num [pyGtQ, List.filter_cons, Bool.and_eq_true, decide_eq_true_eq]
  · rw [hqe]
    norm_num [cosineSim, normSq, dot]
  · rw [hqe]
    norm_num [cosineSim, normSq, dot]
  · rw [hsqrt]
    norm_num

/-- C5 witness: a NaN-free concrete call of the amended contract — both
stored embeddings have nonzero norm; the threshold, sortedness and stability
conclusions are obtained from `C5_retriever_contract` with every hypothesis
discharged concretely. -/
theorem C5_retriever_contract_witness :
    (∃ e d n, (fun i => if i = "t1" then some [(3 : ℚ), 4]
        else if i = "t2" then some [4, 3] else none) "t1" = some e ∧
      cosineSim (getEmbedding (fun _ => [1, 0]) "q") e = some (d, n) ∧
      ((1 / 2 : ℚ) : ℝ) < (d : ℝ) / Real.sqrt (n : ℝ)) ∧
    (((relevanceSorted (getEmbedding (fun _ => [1, 0]) "q")
        [⟨"t1", "N1", some "s1", [], 0, "c1", some "e1"⟩,
         ⟨"t2", "N2", some "s2", [], 0, "c2", some "e2"⟩]
        (fun i => if i = "t1" then some [(3 : ℚ), 4]
          else if i = "t2" then some [4, 3] else none)).filter
        fun p => pyGtQ p.1 (1 / 2)).Pairwise fun p q => simKeyVal q ≤ simKeyVal p) ∧
    ((relevanceSorted (getEmbedding (fun _ => [1, 0]) "q")
        [⟨"t1", "N1", some "s1", [], 0, "c1", some "e1"⟩,
         ⟨"t2", "N2", some "s2", [], 0, "c2", some "e2"⟩]
        (fun i => if i = "t1" then some [(3 : ℚ), 4]
          else if i = "t2" then some [4, 3] else none)).filter
          (fun p => simEqB p.1 (some (3, 25))) =
      (relevanceScores (getEmbedding (fun _ => [1, 0]) "q")
        [⟨"t1", "N1", some "s1", [], 0, "c1", some "e1"⟩,
         ⟨"t2", "N2", some "s2", [], 0, "c2", some "e2"⟩]
        (fun i => if i = "t1" then some [(3 : ℚ), 4]
          else if i = "t2" then some [4, 3] else none)).filter
          (fun p => simEqB p.1 (some (3, 25)))) := by
  have hqe : getEmbedding (fun _ => [(1 : ℚ), 0]) "q" = [1, 0] := by
    norm_num +decide [getEmbedding, isBlank]
  have hq : normSq (getEmbedding (fun _ => [(1 : ℚ), 0]) "q") ≠ 0 := by
    rw [hqe]
    norm_num [normSq, dot]
  have hemb : ∀ t ∈ [(⟨"t1", "N1", some "s1", [], 0, "c1", some "e1"⟩ : Topic),
      ⟨"t2", "N2", some "s2", [], 0, "c2", some "e2"⟩],
      ∀ e, (fun i => if i = "t1" then some [(3 : ℚ), 4]
        else if i = "t2" then some [4, 3] else none) t.id = some e → normSq e ≠ 0 := by
    intro t ht e he
    simp only [List.mem_cons, List.not_mem_nil, or_false] at ht
    rcases ht with rfl | rfl <;>
      (norm_num +decide at he; rw [← he]; norm_num [normSq, dot])
  have H := C5_retriever_contract (fun _ => [(1 : ℚ), 0]) "q"
      [⟨"t1", "N1", some "s1", [], 0, "c1", some "e1"⟩,
       ⟨"t2", "N2", some "s2", [], 0, "c2", some "e2"⟩]
      (fun i => if i = "t1" then some [(3 : ℚ), 4]
        else if i = "t2" then some [4, 3] else none) 2 (1 / 2)
  have hbis : bisect pyLtKey
      ((some (3, 25) : Sim), (⟨"t1", "N1", some "s1", [], 0, "c1", some "e1"⟩ : Topic))
      [((some (4, 25) : Sim), (⟨"t2", "N2", some "s2", [], 0, "c2", some "e2"⟩ : Topic))]
      0 1 = 0 := by
    rw [bisect, dif_pos (by norm_num)]
    norm_num [List.getD_cons_zero, pyLtKey, pyLt, bisect_same]
  have hres : findRelevantTopics (fun _ => [(1 : ℚ), 0]) "q"
      [⟨"t1", "N1", some "s1", [], 0, "c1", some "e1"⟩,
       ⟨"t2", "N2", some "s2", [], 0, "c2", some "e2"⟩]
      (fun i => if i = "t1" then some [(3 : ℚ), 4]
        else if i = "t2" then some [4, 3] else none) 2 (1 / 2) =
      [⟨"t2", "N2", some "s2", [], 0, "c2", some "e2"⟩,
       ⟨"t1", "N1", some "s1", [], 0, "c1", some "e1"⟩] := by
    have hs : relevanceScores [1, 0]
        [(⟨"t1", "N1", some "s1", [], 0, "c1", some "e1"⟩ : Topic),
         ⟨"t2", "N2", some "s2", [], 0, "c2", some "e2"⟩]
        (fun i => if i = "t1" then some [(3 : ℚ), 4]
          else if i = "t2" then some [4, 3] else none) =
        [(some (3, 25), ⟨"t1", "N1", some "s1", [], 0, "c1", some "e1"⟩),
         (some (4, 25), ⟨"t2", "N2", some "s2", [], 0, "c2", some "e2"⟩)] := by
      norm_num +decide [relevanceScores, List.filterMap_cons, cosineSim, normSq, dot]
    have hi1 : binInsert pyLtKey
        ((some (4, 25) : Sim), (⟨"t2", "N2", some "s2", [], 0, "c2", some "e2"⟩ : Topic))
        [] = [(some (4, 25), ⟨"t2", "N2", some "s2", [], 0, "c2", some "e2"⟩)] := by
      norm_num [binInsert, bisect_same]
    have hi2 : binInsert pyLtKey
        ((some (3, 25) : Sim), (⟨"t1", "N1", some "s1", [], 0, "c1", some "e1"⟩ : Topic))
        [((some (4, 25) : Sim), (⟨"t2", "N2", some "s2", [], 0, "c2", some "e2"⟩ : Topic))] =
        [(some (3, 25), ⟨"t1", "N1", some "s1", [], 0, "c1", some "e1"⟩),
         (some (4, 25), ⟨"t2", "N2", some "s2", [], 0, "c2", some "e2"⟩)] := by
      norm_num [binInsert, hbis]
    unfold findRelevantTopics
    rw [if_neg (by norm_num +decide [isBlank])]
    rw [hqe]
    unfold relevanceSorted
    rw [hs]
    unfold pySortDesc binSortAsc
    simp only [List.reverse_cons, List.reverse_nil, List.nil_append, List.cons_append,
      List.foldl_cons, List.foldl_nil]
    rw [hi1, hi2]
    norm_num [pyGtQ, List.filter_cons, Bool.and_eq_true, decide_eq_true_eq]
  refine ⟨?_, (H.2.2.2.2 hq hemb).1, (H.2.2.2.2 hq hemb).2 3 25 (by norm_num)⟩
  exact H.2.2.2.1 ⟨"t1", "N1", some "s1", [], 0, "c1", some "e1"⟩
    (by rw [hres]; simp)

/-- C6 witness: the NaN statements applied at the zero vector, at a blank
text embedding, and at a concrete retrieval whose returned topic is checked
to carry a value similarity. -/
theorem C6_nan_non_matching_witness :
    cosineSim [1, 0] [0, 0] = none ∧
    cosineSim [1, 0] (getEmbedding (fun _ => [1]) " ") = none ∧
    (∃ e, (fun i => if i = "t1" then some [(4 : ℚ), 3] else none) "t1" = some e ∧
      cosineSim (getEmbedding (fun _ => [1, 0]) "q") e ≠ none) := by
  have hqe : getEmbedding (fun _ => [(1 : ℚ), 0]) "q" = [1, 0] := by
    norm_num +decide [getEmbedding, isBlank]
  have hres : findRelevantTopics (fun _ => [(1 : ℚ), 0]) "q"
      [⟨"t1", "N1", some "s1", [], 0, "c1", some "e1"⟩]
      (fun i => if i = "t1" then some [(4 : ℚ), 3] else none) 2 (1 / 2) =
      [⟨"t1", "N1", some "s1", [], 0, "c1", some "e1"⟩] := by
    have hs : relevanceScores [1, 0]
        [(⟨"t1", "N1", some "s1", [], 0, "c1", some "e1"⟩ : Topic)]
        (fun i => if i = "t1" then some [(4 : ℚ), 3] else none) =
        [(some (4, 25), ⟨"t1", "N1", some "s1", [], 0, "c1", some "e1"⟩)] := by
      norm_num +decide [relevanceScores, List.filterMap_cons, cosineSim, normSq, dot]
    have hi1 : binInsert pyLtKey
        ((some (4, 25) : Sim), (⟨"t1", "N1", some "s1", [], 0, "c1", some "e1"⟩ : Topic))
        [] = [(some (4, 25), ⟨"t1", "N1", some "s1", [], 0, "c1", some "e1"⟩)] := by
      norm_num [binInsert, bisect_same]
    unfold findRelevantTopics
    rw [if_neg (by norm_num +decide [isBlank])]
    rw [hqe]
    unfold relevanceSorted
    rw [hs]
    unfold pySortDesc binSortAsc
    simp only [List.reverse_cons, List.reverse_nil, List.nil_append,
      List.foldl_cons, List.foldl_nil]
    rw [hi1]
    norm_num [pyGtQ, List.filter_cons, Bool.and_eq_true, decide_eq_true_eq]
  refine ⟨C6_nan_non_matching.1 [1, 0] [0, 0] (Or.inr (by norm_num [normSq, dot])),
    C6_nan_non_matching.2.1 (fun _ => [1]) " " [1, 0] (by decide),
    C6_nan_non_matching.2.2 (fun _ => [(1 : ℚ), 0]) "q"
      [⟨"t1", "N1", some "s1", [], 0, "c1", some "e1"⟩]
      (fun i => if i = "t1" then some [(4 : ℚ), 3] else none) 2 (1 / 2)
      ⟨"t1", "N1", some "s1", [], 0, "c1", some "e1"⟩ (by rw [hres]; simp)⟩
